import Mathlib

/-!
Verification development for the luaui repository (src/luaui.js and
src/unnamed/part_000): a Lua-flavored UI language toolchain with a lexer,
recursive-descent AdvancedParser, AdvancedCompiler (text-level code
generation and textual optimization passes), AdvancedReactiveSystem
(dependency tracking, trigger, computed, ref), and a virtual-DOM
DOMRenderer (patch, updateElement, updateChildren, unmount).

Each section shallowly embeds the relevant source functions; theorems at
the end settle the specification claims against these embeddings.
-/

set_option maxHeartbeats 1600000

namespace AdvParse

/-- Token kinds of the AdvancedLexer in src/luaui.js (the TokenType table,
restricted to the kinds that the modeled parser functions inspect).
Literal payloads are carried on the token as in createToken. -/
inductive Tok where
  | LOCAL | VAR | LET | CONST
  | IDENT (s : String)
  | ASSIGN | SEMICOLON
  | NUMBER (n : Int)
  | STRLIT (s : String)
  | BOOLEAN (b : Bool)
  | NIL
  | NEWLINE | EOF
  | MINUS | PLUS | NOT | BITWISE_NOT | INCREMENT | DECREMENT | AWAIT
  | POWER (raw : String) | MULTIPLY | DIVIDE | MODULO
  | LOGICAL_OR | OR_KW | LOGICAL_AND | AND_KW
  | BITWISE_OR | BITWISE_XOR | BITWISE_AND
  | EQUAL | NOT_EQUAL | STRICT_EQUAL | STRICT_NOT_EQUAL
  | LESS_THAN | LESS_EQUAL | GREATER_THAN | GREATER_EQUAL
  | LEFT_SHIFT | RIGHT_SHIFT | UNSIGNED_RIGHT_SHIFT
  | QUESTION | COLON
  | PLUS_ASSIGN | MINUS_ASSIGN | MULTIPLY_ASSIGN | DIVIDE_ASSIGN
  | MODULO_ASSIGN | POWER_ASSIGN
  | LEFT_PAREN | RIGHT_PAREN | LEFT_BRACKET | RIGHT_BRACKET
  | LEFT_BRACE | RIGHT_BRACE
  | DOT | COMMA | ARROW | OPTIONAL_CHAINING | SPREAD
  | COMPONENT | FUNCTION | CLASS | IF | WHILE | FOR | DO | REPEAT
  | SWITCH | TRY | RETURN | BREAK | CONTINUE | THROW
  | NEW | SUPER | THIS
  | TEMPLATE_LITERAL (s : String)
  | REGEX
  | IMPORT_KW | EXPORT_KW

/-- Literal values carried by AST literal nodes. -/
inductive LitVal where
  | num (n : Int)
  | str (s : String)
  | bool (b : Bool)
  | nil
  deriving DecidableEq, Repr

/-- Expression AST nodes produced by the AdvancedParser expression cascade
(ASTNodeType LITERAL, IDENTIFIER, UNARY_EXPRESSION, UPDATE_EXPRESSION,
BINARY_EXPRESSION, LOGICAL_EXPRESSION, CONDITIONAL_EXPRESSION,
ASSIGNMENT_EXPRESSION, AWAIT_EXPRESSION). Operator fields hold the
operator strings exactly as the source stores them. -/
inductive Expr where
  | lit (v : LitVal)
  | ident (name : String)
  | unary (op : String) (argument : Expr)
  | update (op : String) (argument : Expr) (pre : Bool)
  | binary (op : String) (left right : Expr)
  | logical (op : String) (left right : Expr)
  | conditional (test consequent alternate : Expr)
  | assign (op : String) (left right : Expr)
  | awaitE (argument : Expr)
  | call (callee : Expr) (args : List Expr) (optional : Bool)
  | member (obj : Expr) (prop : Expr) (computed : Bool) (optional : Bool)
  | newE (callee : Expr) (args : List Expr)
  | spread (argument : Expr)
  | superE

/-- Statement AST nodes needed for the claims: VARIABLE_DECLARATION (a
kind string plus declarators of name and optional initializer) and
EXPRESSION_STATEMENT. -/
inductive Stmt where
  | varDecl (kind : String) (decls : List (String × Option Expr))
  | exprStmt (e : Expr)

/-- Parse errors. A consumeErr is raised by consume (which also records
the error in the errors list before throwing, as in the source);
directErr models a plain thrown Error (for example the final throw of
primaryExpression); unmodeled marks statement branches of the source
that this embedding does not model (never reached by the claim inputs);
noFuel is the fuel bound of the embedding. -/
inductive PErr where
  | consumeErr (msg : String)
  | directErr (msg : String)
  | unmodeled (what : String)
  | noFuel
  deriving DecidableEq, Repr

/-- Parser state: the token array, the current index, and the errors list
(this.errors), which mutates even across thrown errors. -/
structure PState where
  tokens : List Tok
  current : Nat
  errors : List PErr
  sourceTypeModule : Bool := false
  allowImportExportEverywhere : Bool := false
  inClass : Bool := false

/-- Result of a parser action: the updated state together with either a
value or a thrown error (JS exceptions leave the mutated state behind). -/
def PRes (α : Type) : Type := PState × Except PErr α

/-- Token kind equality test used by check (the source compares the type
tags; payload-carrying kinds compare by tag only, as token.type does). -/
def tokTag : Tok → Nat
  | .LOCAL => 0 | .VAR => 1 | .LET => 2 | .CONST => 3
  | .IDENT _ => 4 | .ASSIGN => 5 | .SEMICOLON => 6
  | .NUMBER _ => 7 | .STRLIT _ => 8 | .BOOLEAN _ => 9 | .NIL => 10
  | .NEWLINE => 11 | .EOF => 12
  | .MINUS => 13 | .PLUS => 14 | .NOT => 15 | .BITWISE_NOT => 16
  | .INCREMENT => 17 | .DECREMENT => 18 | .AWAIT => 19
  | .POWER _ => 20 | .MULTIPLY => 21 | .DIVIDE => 22 | .MODULO => 23
  | .LOGICAL_OR => 24 | .OR_KW => 25 | .LOGICAL_AND => 26 | .AND_KW => 27
  | .BITWISE_OR => 28 | .BITWISE_XOR => 29 | .BITWISE_AND => 30
  | .EQUAL => 31 | .NOT_EQUAL => 32 | .STRICT_EQUAL => 33
  | .STRICT_NOT_EQUAL => 34
  | .LESS_THAN => 35 | .LESS_EQUAL => 36 | .GREATER_THAN => 37
  | .GREATER_EQUAL => 38
  | .LEFT_SHIFT => 39 | .RIGHT_SHIFT => 40 | .UNSIGNED_RIGHT_SHIFT => 41
  | .QUESTION => 42 | .COLON => 43
  | .PLUS_ASSIGN => 44 | .MINUS_ASSIGN => 45 | .MULTIPLY_ASSIGN => 46
  | .DIVIDE_ASSIGN => 47 | .MODULO_ASSIGN => 48 | .POWER_ASSIGN => 49
  | .LEFT_PAREN => 50 | .RIGHT_PAREN => 51 | .LEFT_BRACKET => 52
  | .RIGHT_BRACKET => 53 | .LEFT_BRACE => 54 | .RIGHT_BRACE => 55
  | .DOT => 56 | .COMMA => 57 | .ARROW => 58 | .OPTIONAL_CHAINING => 59
  | .SPREAD => 60
  | .COMPONENT => 61 | .FUNCTION => 62 | .CLASS => 63 | .IF => 64
  | .WHILE => 65 | .FOR => 66 | .DO => 67 | .REPEAT => 68 | .SWITCH => 69
  | .TRY => 70 | .RETURN => 71 | .BREAK => 72 | .CONTINUE => 73
  | .THROW => 74 | .NEW => 75 | .SUPER => 76 | .THIS => 77
  | .TEMPLATE_LITERAL _ => 78 | .REGEX => 79
  | .IMPORT_KW => 80 | .EXPORT_KW => 81

/-- Same token kind (token.type comparison). -/
def sameKind (a b : Tok) : Bool := tokTag a == tokTag b

/-- peek with offset: tokens at current+offset, or the last token when the
index runs off the end (the source falls back to tokens.length-1). -/
def peekAt (st : PState) (offset : Nat := 0) : Tok :=
  let index := st.current + offset
  if h : index < st.tokens.length then st.tokens.get ⟨index, h⟩
  else (st.tokens.getLast? ).getD .EOF

/-- isAtEnd: the current token is EOF. -/
def isAtEnd (st : PState) : Bool := sameKind (peekAt st) .EOF

/-- previous: tokens at current-1 (only called after at least one
advance, as in the source). -/
def previousTok (st : PState) : Tok := (st.tokens.get? (st.current - 1)).getD .EOF

/-- advance: move past the current token unless at end, returning the
token just passed. -/
def advanceP (st : PState) : PState × Tok :=
  let st' := if isAtEnd st then st else { st with current := st.current + 1 }
  (st', previousTok st')

/-- check: current token has the given kind (false at EOF). -/
def checkP (st : PState) (t : Tok) : Bool :=
  if isAtEnd st then false else sameKind (peekAt st) t

/-- match over a list of kinds: advance past the first kind that checks. -/
def matchP (st : PState) (ts : List Tok) : PState × Bool :=
  match ts with
  | [] => (st, false)
  | t :: rest =>
    if checkP st t then ((advanceP st).1, true) else matchP st rest

/-- consume: advance past a token of the expected kind or record the
error in this.errors and throw it. -/
def consumeP (st : PState) (t : Tok) (msg : String) : PRes Tok :=
  if checkP st t then
    let (st', tok) := advanceP st
    (st', .ok tok)
  else
    let e := PErr.consumeErr msg
    ({ st with errors := st.errors ++ [e] }, .error e)

/-- skipNewlines: discard NEWLINE tokens (fuel bounds the loop; any fuel
at least the token count suffices). -/
def skipNewlines (fuel : Nat) (st : PState) : PState :=
  match fuel with
  | 0 => st
  | f + 1 =>
    let (st', matched) := matchP st [.NEWLINE]
    if matched then skipNewlines f st' else st

/-- Lexeme of a token as stored in token.value by the lexer (used where
the parser reads previous().value). -/
def tokValueStr : Tok → String
  | .LOCAL => "local" | .VAR => "var" | .LET => "let" | .CONST => "const"
  | .IDENT s => s
  | .ASSIGN => "="
  | .MINUS => "-" | .PLUS => "+" | .NOT => "!" | .BITWISE_NOT => "~"
  | .INCREMENT => "++" | .DECREMENT => "--"
  | .POWER raw => raw
  | .MULTIPLY => "*" | .DIVIDE => "/" | .MODULO => "%"
  | .LOGICAL_OR => "||" | .OR_KW => "or"
  | .LOGICAL_AND => "&&" | .AND_KW => "and"
  | .BITWISE_OR => "|" | .BITWISE_XOR => "xor" | .BITWISE_AND => "&"
  | .EQUAL => "==" | .NOT_EQUAL => "~=" | .STRICT_EQUAL => "==="
  | .STRICT_NOT_EQUAL => "!=="
  | .LESS_THAN => "<" | .LESS_EQUAL => "<=" | .GREATER_THAN => ">"
  | .GREATER_EQUAL => ">="
  | .LEFT_SHIFT => "<<" | .RIGHT_SHIFT => ">>"
  | .UNSIGNED_RIGHT_SHIFT => ">>>"
  | .PLUS_ASSIGN => "+=" | .MINUS_ASSIGN => "-=" | .MULTIPLY_ASSIGN => "*="
  | .DIVIDE_ASSIGN => "/=" | .MODULO_ASSIGN => "%=" | .POWER_ASSIGN => "**="
  | _ => ""

/-- Literal payload of a literal token, as carried into LITERAL nodes. -/
def tokLit : Tok → LitVal
  | .NUMBER n => .num n
  | .STRLIT s => .str s
  | .BOOLEAN b => .bool b
  | .NIL => .nil
  | _ => .nil

/-- The seven assignment operator token kinds matched by
assignmentExpression. -/
def assignOps : List Tok :=
  [.ASSIGN, .PLUS_ASSIGN, .MINUS_ASSIGN, .MULTIPLY_ASSIGN, .DIVIDE_ASSIGN,
   .MODULO_ASSIGN, .POWER_ASSIGN]

mutual

/-- expression(): entry to the precedence-climbing cascade. -/
def expressionP (fuel : Nat) (st : PState) : PRes Expr :=
  match fuel with
  | 0 => (st, .error .noFuel)
  | f + 1 => assignmentExpression f st

/-- assignmentExpression: conditional, then an optional right-recursive
assignment tail. -/
def assignmentExpression (fuel : Nat) (st : PState) : PRes Expr :=
  match fuel with
  | 0 => (st, .error .noFuel)
  | f + 1 =>
    match conditionalExpression f st with
    | (st1, .error e) => (st1, .error e)
    | (st1, .ok expr) =>
      let (st2, m) := matchP st1 assignOps
      if m then
        let op := tokValueStr (previousTok st2)
        match assignmentExpression f st2 with
        | (st3, .error e) => (st3, .error e)
        | (st3, .ok right) => (st3, .ok (.assign op expr right))
      else (st2, .ok expr)

/-- conditionalExpression: logical-or, then an optional ternary tail. -/
def conditionalExpression (fuel : Nat) (st : PState) : PRes Expr :=
  match fuel with
  | 0 => (st, .error .noFuel)
  | f + 1 =>
    match logicalOrExpression f st with
    | (st1, .error e) => (st1, .error e)
    | (st1, .ok expr) =>
      let (st2, m) := matchP st1 [.QUESTION]
      if m then
        match assignmentExpression f st2 with
        | (st3, .error e) => (st3, .error e)
        | (st3, .ok consequent) =>
          match consumeP st3 .COLON "Expected colon in ternary expression" with
          | (st4, .error e) => (st4, .error e)
          | (st4, .ok _) =>
            match conditionalExpression f st4 with
            | (st5, .error e) => (st5, .error e)
            | (st5, .ok alternate) =>
              (st5, .ok (.conditional expr consequent alternate))
      else (st2, .ok expr)

/-- logicalOrExpression and its while loop over LOGICAL_OR and the Lua
keyword or (mapped to the JS operator). -/
def logicalOrExpression (fuel : Nat) (st : PState) : PRes Expr :=
  match fuel with
  | 0 => (st, .error .noFuel)
  | f + 1 =>
    match logicalAndExpression f st with
    | (st1, .error e) => (st1, .error e)
    | (st1, .ok expr) => logicalOrLoop f st1 expr

def logicalOrLoop (fuel : Nat) (st : PState) (expr : Expr) : PRes Expr :=
  match fuel with
  | 0 => (st, .error .noFuel)
  | f + 1 =>
    let (st1, m) := matchP st [.LOGICAL_OR, .OR_KW]
    if m then
      let raw := tokValueStr (previousTok st1)
      let op := if raw == "or" then "||" else raw
      match logicalAndExpression f st1 with
      | (st2, .error e) => (st2, .error e)
      | (st2, .ok right) => logicalOrLoop f st2 (.logical op expr right)
    else (st1, .ok expr)

/-- logicalAndExpression and its loop over LOGICAL_AND and the Lua
keyword and. -/
def logicalAndExpression (fuel : Nat) (st : PState) : PRes Expr :=
  match fuel with
  | 0 => (st, .error .noFuel)
  | f + 1 =>
    match bitwiseOrExpression f st with
    | (st1, .error e) => (st1, .error e)
    | (st1, .ok expr) => logicalAndLoop f st1 expr

def logicalAndLoop (fuel : Nat) (st : PState) (expr : Expr) : PRes Expr :=
  match fuel with
  | 0 => (st, .error .noFuel)
  | f + 1 =>
    let (st1, m) := matchP st [.LOGICAL_AND, .AND_KW]
    if m then
      let raw := tokValueStr (previousTok st1)
      let op := if raw == "and" then "&&" else raw
      match bitwiseOrExpression f st1 with
      | (st2, .error e) => (st2, .error e)
      | (st2, .ok right) => logicalAndLoop f st2 (.logical op expr right)
    else (st1, .ok expr)

def bitwiseOrExpression (fuel : Nat) (st : PState) : PRes Expr :=
  match fuel with
  | 0 => (st, .error .noFuel)
  | f + 1 =>
    match bitwiseXorExpression f st with
    | (st1, .error e) => (st1, .error e)
    | (st1, .ok expr) => bitwiseOrLoop f st1 expr

def bitwiseOrLoop (fuel : Nat) (st : PState) (expr : Expr) : PRes Expr :=
  match fuel with
  | 0 => (st, .error .noFuel)
  | f + 1 =>
    let (st1, m) := matchP st [.BITWISE_OR]
    if m then
      let op := tokValueStr (previousTok st1)
      match bitwiseXorExpression f st1 with
      | (st2, .error e) => (st2, .error e)
      | (st2, .ok right) => bitwiseOrLoop f st2 (.binary op expr right)
    else (st1, .ok expr)

def bitwiseXorExpression (fuel : Nat) (st : PState) : PRes Expr :=
  match fuel with
  | 0 => (st, .error .noFuel)
  | f + 1 =>
    match bitwiseAndExpression f st with
    | (st1, .error e) => (st1, .error e)
    | (st1, .ok expr) => bitwiseXorLoop f st1 expr

def bitwiseXorLoop (fuel : Nat) (st : PState) (expr : Expr) : PRes Expr :=
  match fuel with
  | 0 => (st, .error .noFuel)
  | f + 1 =>
    let (st1, m) := matchP st [.BITWISE_XOR]
    if m then
      let op := tokValueStr (previousTok st1)
      match bitwiseAndExpression f st1 with
      | (st2, .error e) => (st2, .error e)
      | (st2, .ok right) => bitwiseXorLoop f st2 (.binary op expr right)
    else (st1, .ok expr)

def bitwiseAndExpression (fuel : Nat) (st : PState) : PRes Expr :=
  match fuel with
  | 0 => (st, .error .noFuel)
  | f + 1 =>
    match equalityExpression f st with
    | (st1, .error e) => (st1, .error e)
    | (st1, .ok expr) => bitwiseAndLoop f st1 expr

def bitwiseAndLoop (fuel : Nat) (st : PState) (expr : Expr) : PRes Expr :=
  match fuel with
  | 0 => (st, .error .noFuel)
  | f + 1 =>
    let (st1, m) := matchP st [.BITWISE_AND]
    if m then
      let op := tokValueStr (previousTok st1)
      match equalityExpression f st1 with
      | (st2, .error e) => (st2, .error e)
      | (st2, .ok right) => bitwiseAndLoop f st2 (.binary op expr right)
    else (st1, .ok expr)

/-- equalityExpression and its loop; the Lua operator ~= is rewritten to
the JS operator here, as in the source. -/
def equalityExpression (fuel : Nat) (st : PState) : PRes Expr :=
  match fuel with
  | 0 => (st, .error .noFuel)
  | f + 1 =>
    match relationalExpression f st with
    | (st1, .error e) => (st1, .error e)
    | (st1, .ok expr) => equalityLoop f st1 expr

def equalityLoop (fuel : Nat) (st : PState) (expr : Expr) : PRes Expr :=
  match fuel with
  | 0 => (st, .error .noFuel)
  | f + 1 =>
    let (st1, m) := matchP st
      [.EQUAL, .NOT_EQUAL, .STRICT_EQUAL, .STRICT_NOT_EQUAL]
    if m then
      let raw := tokValueStr (previousTok st1)
      let op := if raw == "~=" then "!=" else raw
      match relationalExpression f st1 with
      | (st2, .error e) => (st2, .error e)
      | (st2, .ok right) => equalityLoop f st2 (.binary op expr right)
    else (st1, .ok expr)

def relationalExpression (fuel : Nat) (st : PState) : PRes Expr :=
  match fuel with
  | 0 => (st, .error .noFuel)
  | f + 1 =>
    match shiftExpression f st with
    | (st1, .error e) => (st1, .error e)
    | (st1, .ok expr) => relationalLoop f st1 expr

def relationalLoop (fuel : Nat) (st : PState) (expr : Expr) : PRes Expr :=
  match fuel with
  | 0 => (st, .error .noFuel)
  | f + 1 =>
    let (st1, m) := matchP st
      [.LESS_THAN, .LESS_EQUAL, .GREATER_THAN, .GREATER_EQUAL]
    if m then
      let op := tokValueStr (previousTok st1)
      match shiftExpression f st1 with
      | (st2, .error e) => (st2, .error e)
      | (st2, .ok right) => relationalLoop f st2 (.binary op expr right)
    else (st1, .ok expr)

def shiftExpression (fuel : Nat) (st : PState) : PRes Expr :=
  match fuel with
  | 0 => (st, .error .noFuel)
  | f + 1 =>
    match additiveExpression f st with
    | (st1, .error e) => (st1, .error e)
    | (st1, .ok expr) => shiftLoop f st1 expr

def shiftLoop (fuel : Nat) (st : PState) (expr : Expr) : PRes Expr :=
  match fuel with
  | 0 => (st, .error .noFuel)
  | f + 1 =>
    let (st1, m) := matchP st
      [.LEFT_SHIFT, .RIGHT_SHIFT, .UNSIGNED_RIGHT_SHIFT]
    if m then
      let op := tokValueStr (previousTok st1)
      match additiveExpression f st1 with
      | (st2, .error e) => (st2, .error e)
      | (st2, .ok right) => shiftLoop f st2 (.binary op expr right)
    else (st1, .ok expr)

def additiveExpression (fuel : Nat) (st : PState) : PRes Expr :=
  match fuel with
  | 0 => (st, .error .noFuel)
  | f + 1 =>
    match multiplicativeExpression f st with
    | (st1, .error e) => (st1, .error e)
    | (st1, .ok expr) => additiveLoop f st1 expr

def additiveLoop (fuel : Nat) (st : PState) (expr : Expr) : PRes Expr :=
  match fuel with
  | 0 => (st, .error .noFuel)
  | f + 1 =>
    let (st1, m) := matchP st [.PLUS, .MINUS]
    if m then
      let op := tokValueStr (previousTok st1)
      match multiplicativeExpression f st1 with
      | (st2, .error e) => (st2, .error e)
      | (st2, .ok right) => additiveLoop f st2 (.binary op expr right)
    else (st1, .ok expr)

def multiplicativeExpression (fuel : Nat) (st : PState) : PRes Expr :=
  match fuel with
  | 0 => (st, .error .noFuel)
  | f + 1 =>
    match exponentiationExpression f st with
    | (st1, .error e) => (st1, .error e)
    | (st1, .ok expr) => multiplicativeLoop f st1 expr

def multiplicativeLoop (fuel : Nat) (st : PState) (expr : Expr) : PRes Expr :=
  match fuel with
  | 0 => (st, .error .noFuel)
  | f + 1 =>
    let (st1, m) := matchP st [.MULTIPLY, .DIVIDE, .MODULO]
    if m then
      let op := tokValueStr (previousTok st1)
      match exponentiationExpression f st1 with
      | (st2, .error e) => (st2, .error e)
      | (st2, .ok right) => multiplicativeLoop f st2 (.binary op expr right)
    else (st1, .ok expr)

/-- exponentiationExpression: the left operand is parsed by
unaryExpression first; a POWER tail recurses into
exponentiationExpression (right associative), with the caret lexeme
rewritten to the JS power operator. -/
def exponentiationExpression (fuel : Nat) (st : PState) : PRes Expr :=
  match fuel with
  | 0 => (st, .error .noFuel)
  | f + 1 =>
    match unaryExpression f st with
    | (st1, .error e) => (st1, .error e)
    | (st1, .ok expr) =>
      let (st2, m) := matchP st1 [.POWER ""]
      if m then
        let raw := tokValueStr (previousTok st2)
        let op := if raw == "^" then "**" else raw
        match exponentiationExpression f st2 with
        | (st3, .error e) => (st3, .error e)
        | (st3, .ok right) => (st3, .ok (.binary op expr right))
      else (st2, .ok expr)

/-- unaryExpression: prefix operators (with the Lua keyword not mapped to
the JS operator, and increment or decrement producing UPDATE nodes),
then AWAIT, then postfix. -/
def unaryExpression (fuel : Nat) (st : PState) : PRes Expr :=
  match fuel with
  | 0 => (st, .error .noFuel)
  | f + 1 =>
    let (st1, m) := matchP st
      [.NOT, .MINUS, .PLUS, .BITWISE_NOT, .INCREMENT, .DECREMENT]
    if m then
      let raw := tokValueStr (previousTok st1)
      let op := if raw == "not" then "!" else raw
      match unaryExpression f st1 with
      | (st2, .error e) => (st2, .error e)
      | (st2, .ok argument) =>
        if op == "++" || op == "--" then
          (st2, .ok (.update op argument true))
        else
          (st2, .ok (.unary op argument))
    else
      let (st2, mAwait) := matchP st1 [.AWAIT]
      if mAwait then
        -- scope.async is false at top level and allowAwaitOutsideFunction
        -- defaults to false, so this path throws as in the source
        (st2, .error (.directErr "Await expression outside async function"))
      else
        postfixExpression f st2

def postfixExpression (fuel : Nat) (st : PState) : PRes Expr :=
  match fuel with
  | 0 => (st, .error .noFuel)
  | f + 1 =>
    match callExpression f st with
    | (st1, .error e) => (st1, .error e)
    | (st1, .ok expr) =>
      let (st2, m) := matchP st1 [.INCREMENT, .DECREMENT]
      if m then
        let op := tokValueStr (previousTok st2)
        (st2, .ok (.update op expr false))
      else (st2, .ok expr)

def callExpression (fuel : Nat) (st : PState) : PRes Expr :=
  match fuel with
  | 0 => (st, .error .noFuel)
  | f + 1 =>
    match memberExpression f st with
    | (st1, .error e) => (st1, .error e)
    | (st1, .ok expr) => callLoop f st1 expr

def callLoop (fuel : Nat) (st : PState) (expr : Expr) : PRes Expr :=
  match fuel with
  | 0 => (st, .error .noFuel)
  | f + 1 =>
    let (st1, mParen) := matchP st [.LEFT_PAREN]
    if mParen then
      match finishCall f st1 expr false with
      | (st2, .error e) => (st2, .error e)
      | (st2, .ok expr') => callLoop f st2 expr'
    else
      let (st2, mBracket) := matchP st1 [.LEFT_BRACKET]
      if mBracket then
        match expressionP f st2 with
        | (st3, .error e) => (st3, .error e)
        | (st3, .ok property) =>
          match consumeP st3 .RIGHT_BRACKET
              "Expected closing bracket after computed property" with
          | (st4, .error e) => (st4, .error e)
          | (st4, .ok _) => callLoop f st4 (.member expr property true false)
      else
        let (st3, mDot) := matchP st2 [.DOT]
        if mDot then
          match consumeP st3 (.IDENT "") "Expected property name after dot" with
          | (st4, .error e) => (st4, .error e)
          | (st4, .ok tok) =>
            callLoop f st4 (.member expr (.ident (tokValueStr tok)) false false)
        else
          let (st4, mOpt) := matchP st3 [.OPTIONAL_CHAINING]
          if mOpt then
            -- optional-chaining member and call forms
            if checkP st4 .LEFT_BRACKET then
              let (st5, _) := advanceP st4
              match expressionP f st5 with
              | (st6, .error e) => (st6, .error e)
              | (st6, .ok property) =>
                match consumeP st6 .RIGHT_BRACKET
                    "Expected closing bracket after computed property" with
                | (st7, .error e) => (st7, .error e)
                | (st7, .ok _) =>
                  callLoop f st7 (.member expr property true true)
            else if checkP st4 (.IDENT "") then
              let (st5, tok) := advanceP st4
              callLoop f st5 (.member expr (.ident (tokValueStr tok)) false true)
            else if checkP st4 .LEFT_PAREN then
              match finishCall f st4 expr true with
              | (st5, .error e) => (st5, .error e)
              | (st5, .ok expr') => callLoop f st5 expr'
            else
              -- the source falls through the if chain and loops again
              callLoop f st4 expr
          else
            (st4, .ok expr)

def finishCall (fuel : Nat) (st : PState) (callee : Expr) (optional : Bool) :
    PRes Expr :=
  match fuel with
  | 0 => (st, .error .noFuel)
  | f + 1 =>
    if checkP st .RIGHT_PAREN then
      match consumeP st .RIGHT_PAREN "Expected closing paren after arguments" with
      | (st1, .error e) => (st1, .error e)
      | (st1, .ok _) => (st1, .ok (.call callee [] optional))
    else
      match callArgsLoop f st [] with
      | (st1, .error e) => (st1, .error e)
      | (st1, .ok args) =>
        match consumeP st1 .RIGHT_PAREN
            "Expected closing paren after arguments" with
        | (st2, .error e) => (st2, .error e)
        | (st2, .ok _) => (st2, .ok (.call callee args optional))

def callArgsLoop (fuel : Nat) (st : PState) (acc : List Expr) :
    PRes (List Expr) :=
  match fuel with
  | 0 => (st, .error .noFuel)
  | f + 1 =>
    let (st1, mSpread) := matchP st [.SPREAD]
    if mSpread then
      match assignmentExpression f st1 with
      | (st2, .error e) => (st2, .error e)
      | (st2, .ok argument) =>
        let acc' := acc ++ [Expr.spread argument]
        let (st3, mComma) := matchP st2 [.COMMA]
        if mComma then callArgsLoop f st3 acc' else (st3, .ok acc')
    else
      match assignmentExpression f st1 with
      | (st2, .error e) => (st2, .error e)
      | (st2, .ok a) =>
        let acc' := acc ++ [a]
        let (st3, mComma) := matchP st2 [.COMMA]
        if mComma then callArgsLoop f st3 acc' else (st3, .ok acc')

def memberExpression (fuel : Nat) (st : PState) : PRes Expr :=
  match fuel with
  | 0 => (st, .error .noFuel)
  | f + 1 =>
    let (st1, mNew) := matchP st [.NEW]
    if mNew then
      match memberExpression f st1 with
      | (st2, .error e) => (st2, .error e)
      | (st2, .ok callee) =>
        if checkP st2 .LEFT_PAREN then
          let (st3, _) := advanceP st2
          if checkP st3 .RIGHT_PAREN then
            match consumeP st3 .RIGHT_PAREN
                "Expected closing paren after arguments" with
            | (st4, .error e) => (st4, .error e)
            | (st4, .ok _) => (st4, .ok (.newE callee []))
          else
            match newArgsLoop f st3 [] with
            | (st4, .error e) => (st4, .error e)
            | (st4, .ok args) =>
              match consumeP st4 .RIGHT_PAREN
                  "Expected closing paren after arguments" with
              | (st5, .error e) => (st5, .error e)
              | (st5, .ok _) => (st5, .ok (.newE callee args))
        else
          (st2, .ok (.newE callee []))
    else
      primaryExpression f st1

def newArgsLoop (fuel : Nat) (st : PState) (acc : List Expr) :
    PRes (List Expr) :=
  match fuel with
  | 0 => (st, .error .noFuel)
  | f + 1 =>
    match assignmentExpression f st with
    | (st1, .error e) => (st1, .error e)
    | (st1, .ok a) =>
      let acc' := acc ++ [a]
      let (st2, mComma) := matchP st1 [.COMMA]
      if mComma then newArgsLoop f st2 acc' else (st2, .ok acc')

/-- primaryExpression: literal, template, regex, identifier, super, this,
parenthesized expression, array, object, function, arrow, class, or a
thrown Unexpected-token error. Branches for literal forms not needed by
any claim input (templates, regexes, arrays, objects, functions, arrows,
classes) raise the unmodeled marker; the claim inputs never reach them. -/
def primaryExpression (fuel : Nat) (st : PState) : PRes Expr :=
  match fuel with
  | 0 => (st, .error .noFuel)
  | f + 1 =>
    let (st1, mLit) := matchP st [.BOOLEAN true, .NIL, .NUMBER 0, .STRLIT ""]
    if mLit then
      (st1, .ok (.lit (tokLit (previousTok st1))))
    else
      let (st2, mTpl) := matchP st1 [.TEMPLATE_LITERAL ""]
      if mTpl then (st2, .error (.unmodeled "templateLiteral"))
      else
        let (st3, mRegex) := matchP st2 [.REGEX]
        if mRegex then (st3, .error (.unmodeled "regexLiteral"))
        else
          let (st4, mIdent) := matchP st3 [.IDENT ""]
          if mIdent then
            -- the arrow-function lookahead check sits later in the source,
            -- but an IDENT token has already matched here first
            (st4, .ok (.ident (tokValueStr (previousTok st4))))
          else
            let (st5, mSuper) := matchP st4 [.SUPER]
            if mSuper then
              if !st5.inClass then
                (st5, .error (.directErr "super outside class"))
              else (st5, .ok .superE)
            else
              let (st6, mThis) := matchP st5 [.THIS]
              if mThis then (st6, .ok (.ident "this"))
              else
                let (st7, mParen) := matchP st6 [.LEFT_PAREN]
                if mParen then
                  match expressionP f st7 with
                  | (st8, .error e) => (st8, .error e)
                  | (st8, .ok expr) =>
                    match consumeP st8 .RIGHT_PAREN
                        "Expected closing paren after expression" with
                    | (st9, .error e) => (st9, .error e)
                    | (st9, .ok _) => (st9, .ok expr)
                else
                  let (st8, mBracket) := matchP st7 [.LEFT_BRACKET]
                  if mBracket then (st8, .error (.unmodeled "arrayExpression"))
                  else
                    let (st9, mBrace) := matchP st8 [.LEFT_BRACE]
                    if mBrace then (st9, .error (.unmodeled "objectExpression"))
                    else
                      let (st10, mFn) := matchP st9 [.FUNCTION]
                      if mFn then
                        (st10, .error (.unmodeled "functionExpression"))
                      else
                        let (st11, mClass) := matchP st10 [.CLASS]
                        if mClass then
                          (st11, .error (.unmodeled "classExpression"))
                        else
                          (st11, .error (.directErr "Unexpected token"))

end

/-- One parsed variable declarator: consume the name, optionally parse an
initializer after ASSIGN, then continue over commas (the do-while of
variableDeclaration). -/
def varDeclLoop (fuel : Nat) (st : PState)
    (acc : List (String × Option Expr)) :
    PRes (List (String × Option Expr)) :=
  match fuel with
  | 0 => (st, .error .noFuel)
  | f + 1 =>
    match consumeP st (.IDENT "") "Expected variable name" with
    | (st1, .error e) => (st1, .error e)
    | (st1, .ok nameTok) =>
      let name := tokValueStr nameTok
      let (st2, mAssign) := matchP st1 [.ASSIGN]
      if mAssign then
        match assignmentExpression f st2 with
        | (st3, .error e) => (st3, .error e)
        | (st3, .ok init) =>
          let acc' := acc ++ [(name, some init)]
          let (st4, mComma) := matchP st3 [.COMMA]
          if mComma then varDeclLoop f st4 acc' else (st4, .ok acc')
      else
        let acc' := acc ++ [(name, none)]
        let (st3, mComma) := matchP st2 [.COMMA]
        if mComma then varDeclLoop f st3 acc' else (st3, .ok acc')

/-- variableDeclaration: kind from the keyword just matched (the Lua
keyword local is mapped to the JS kind), then the declarator loop. -/
def variableDeclaration (fuel : Nat) (st : PState) : PRes Stmt :=
  match fuel with
  | 0 => (st, .error .noFuel)
  | f + 1 =>
    let kindRaw := tokValueStr (previousTok st)
    let kind := if kindRaw == "local" then "let" else kindRaw
    match varDeclLoop f st [] with
    | (st1, .error e) => (st1, .error e)
    | (st1, .ok decls) => (st1, .ok (.varDecl kind decls))

/-- expressionStatement: a full expression as a statement. -/
def expressionStatement (fuel : Nat) (st : PState) : PRes Stmt :=
  match fuel with
  | 0 => (st, .error .noFuel)
  | f + 1 =>
    match expressionP f st with
    | (st1, .error e) => (st1, .error e)
    | (st1, .ok e) => (st1, .ok (.exprStmt e))

/-- statement(): the dispatch chain of the source, in source order.
Statement forms whose bodies no claim input reaches (component, function
and class declarations, control flow, jumps, blocks) raise the unmodeled
marker after their keyword matches; the variable-declaration branch and
the expression-statement fallthrough are modeled in full. -/
def statementP (fuel : Nat) (st : PState) : PRes Stmt :=
  match fuel with
  | 0 => (st, .error .noFuel)
  | f + 1 =>
    -- import and export are considered only for modules (or with
    -- allowImportExportEverywhere); both options default to false
    let importBranch := st.sourceTypeModule || st.allowImportExportEverywhere
    let (stA, mImp) :=
      if importBranch then matchP st [.IMPORT_KW] else (st, false)
    if mImp then (stA, .error (.unmodeled "importDeclaration"))
    else
      let (stB, mExp) :=
        if importBranch then matchP stA [.EXPORT_KW] else (stA, false)
      if mExp then (stB, .error (.unmodeled "exportDeclaration"))
      else
        let (st1, mComp) := matchP stB [.COMPONENT]
        if mComp then (st1, .error (.unmodeled "componentDeclaration"))
        else
          let (st2, mFn) := matchP st1 [.FUNCTION]
          if mFn then (st2, .error (.unmodeled "functionDeclaration"))
          else
            let (st3, mClass) := matchP st2 [.CLASS]
            if mClass then (st3, .error (.unmodeled "classDeclaration"))
            else
              let (st4, mVar) := matchP st3 [.VAR, .LET, .CONST, .LOCAL]
              if mVar then variableDeclaration f st4
              else
                let (st5, mCtl) := matchP st4
                  [.IF, .WHILE, .FOR, .DO, .REPEAT, .SWITCH, .TRY,
                   .RETURN, .BREAK, .CONTINUE, .THROW]
                if mCtl then
                  (st5, .error (.unmodeled "controlFlowStatement"))
                else
                  if checkP st5 .LEFT_BRACE then
                    (st5, .error (.unmodeled "blockStatement"))
                  else
                    expressionStatement f st5

/-- synchronize: advance once, then skip tokens until just past a
SEMICOLON or NEWLINE, or until a statement-starting keyword (or EOF) is
reached. -/
def synchronize (fuel : Nat) (st : PState) : PState :=
  match fuel with
  | 0 => st
  | f + 1 => syncLoop f (advanceP st).1
where
  syncLoop (fuel : Nat) (st : PState) : PState :=
    match fuel with
    | 0 => st
    | f + 1 =>
      if isAtEnd st then st
      else if sameKind (previousTok st) .SEMICOLON then st
      else if sameKind (previousTok st) .NEWLINE then st
      else if [Tok.CLASS, .FUNCTION, .COMPONENT, .VAR, .LET, .CONST,
               .FOR, .IF, .WHILE, .RETURN, .TRY, .THROW].any
               (fun t => sameKind (peekAt st) t) then st
      else syncLoop f (advanceP st).1

/-- Parse result: the PROGRAM node body together with the errors list
carried on the result, as parse() returns them. -/
structure Program where
  body : List Stmt
  errors : List PErr

/-- The statement loop of parse(): skip newlines, try a statement, on a
thrown error push it onto this.errors and synchronize, and continue to
the end of the token stream. -/
def parseLoop (fuel : Nat) (st : PState) (acc : List Stmt) :
    List Stmt × PState :=
  match fuel with
  | 0 => (acc, st)
  | f + 1 =>
    if isAtEnd st then (acc, st)
    else
      let (st1, mNl) := matchP st [.NEWLINE]
      if mNl then parseLoop f st1 acc
      else
        match statementP f st1 with
        | (st2, .ok stmt) =>
          parseLoop f (skipNewlines f st2) (acc ++ [stmt])
        | (st2, .error e) =>
          let st3 := { st2 with errors := st2.errors ++ [e] }
          parseLoop f (skipNewlines f (synchronize f st3)) acc

/-- parse(): the whole-program entry point (hashbang handling is skipped
since allowHashBang defaults to false). -/
def parseProgram (fuel : Nat) (st : PState) : Program :=
  let st0 := skipNewlines fuel st
  let (body, stFinal) := parseLoop fuel st0 []
  { body := body, errors := stFinal.errors }

/-- Initial parser state over a token stream. -/
def initState (tokens : List Tok) : PState :=
  { tokens := tokens, current := 0, errors := [] }

end AdvParse

namespace ForCompile

/-!
Embedding of the numeric-for compilation of src/unnamed/part_000
(Compiler.compileForStatement together with compileExpression for the
expression forms a loop header and body can contain), plus the runtime
semantics of the three-part loop text it emits, namely
for (let v = start; v <= end; v += step) with the bound test fixed to
the <= comparison and the default step the literal 1.
-/

/-- Source AST expressions (the part_000 parser node kinds needed here):
number literals, identifiers, unary, binary and assignment expressions. -/
inductive CExpr where
  | num (n : Int)
  | ident (name : String)
  | unary (op : String) (operand : CExpr)
  | binary (op : String) (left right : CExpr)
  | assign (left right : CExpr)
  deriving DecidableEq, Repr

/-- Source AST statements for loop bodies: expression statements. -/
inductive CStmt where
  | exprStmt (e : CExpr)
  deriving DecidableEq, Repr

/-- The NumericForStatement AST node produced by Parser.forStatement:
variable name, start, end, optional step (null when the third clause is
absent) and body. -/
structure NumericForStatement where
  varName : String
  start : CExpr
  stop : CExpr
  step : Option CExpr
  body : List CStmt
  deriving DecidableEq, Repr

/-- Emitted JS expressions (the structure of the text compileExpression
produces for these node kinds). -/
inductive JExpr where
  | num (n : Int)
  | ident (name : String)
  | unary (op : String) (operand : JExpr)
  | binary (op : String) (left right : JExpr)
  | assign (left right : JExpr)
  deriving DecidableEq, Repr

/-- compileExpression of part_000 restricted to these node kinds: number
literals print as themselves, ordinary identifiers pass through, unary
and binary expressions parenthesize and keep their operator, assignments
emit left = right. -/
def compileExpression : CExpr → JExpr
  | .num n => .num n
  | .ident name => .ident name
  | .unary op operand => .unary op (compileExpression operand)
  | .binary op l r => .binary op (compileExpression l) (compileExpression r)
  | .assign l r => .assign (compileExpression l) (compileExpression r)

/-- Emitted JS statements. -/
inductive JStmt where
  | exprStmt (e : JExpr)
  deriving DecidableEq, Repr

def compileStatement : CStmt → JStmt
  | .exprStmt e => .exprStmt (compileExpression e)

/-- The three-part loop emitted by compileForStatement for a
NumericForStatement: for (let varName = start; varName testOp bound;
varName += step) followed by the compiled body. The testOp field records
the comparison operator appearing in the emitted text. -/
structure JsFor where
  varName : String
  start : JExpr
  bound : JExpr
  testOp : String
  step : JExpr
  body : List JStmt
  deriving DecidableEq, Repr

/-- compileForStatement (the NumericForStatement branch): step defaults
to the literal 1 when the node carries no step, the bound test is always
emitted as the <= comparison, and the step expression is emitted exactly
as compiled from the node (no sign analysis or clamping). -/
def compileForStatement (node : NumericForStatement) : JsFor :=
  { varName := node.varName
    start := compileExpression node.start
    bound := compileExpression node.stop
    testOp := "<="
    step := (node.step.map compileExpression).getD (.num 1)
    body := node.body.map compileStatement }

/-- Variable environments of the emitted program (JS let bindings and
outer variables, integer-valued for these programs). -/
def JEnv : Type := List (String × Int)

def lookupVar (env : JEnv) (name : String) : Int :=
  match env with
  | [] => 0
  | (k, v) :: rest => if k == name then v else lookupVar rest name

def setVar (env : JEnv) (name : String) (v : Int) : JEnv :=
  match env with
  | [] => [(name, v)]
  | (k, w) :: rest =>
    if k == name then (k, v) :: rest else (k, w) :: setVar rest name v

/-- Evaluation of emitted JS expressions over integer environments
(addition, subtraction, multiplication, unary minus and assignment are
the forms the emitted loops contain). -/
def evalJ (fuel : Nat) (env : JEnv) : JExpr → Option (Int × JEnv)
  | .num n => some (n, env)
  | .ident name => some (lookupVar env name, env)
  | .unary op operand =>
    match fuel with
    | 0 => none
    | f + 1 =>
      match evalJ f env operand with
      | some (v, env') =>
        if op == "-" then some (-v, env') else none
      | none => none
  | .binary op l r =>
    match fuel with
    | 0 => none
    | f + 1 =>
      match evalJ f env l with
      | some (lv, env1) =>
        match evalJ f env1 r with
        | some (rv, env2) =>
          if op == "+" then some (lv + rv, env2)
          else if op == "-" then some (lv - rv, env2)
          else if op == "*" then some (lv * rv, env2)
          else none
        | none => none
      | none => none
  | .assign l r =>
    match fuel with
    | 0 => none
    | f + 1 =>
      match l with
      | .ident name =>
        match evalJ f env r with
        | some (rv, env') => some (rv, setVar env' name rv)
        | none => none
      | _ => none

def runJStmt (fuel : Nat) (env : JEnv) : JStmt → Option JEnv
  | .exprStmt e => (evalJ fuel env e).map (fun p => p.2)

def runJBlock (fuel : Nat) (env : JEnv) : List JStmt → Option JEnv
  | [] => some env
  | s :: rest =>
    match runJStmt fuel env s with
    | some env' => runJBlock fuel env' rest
    | none => none

/-- The bound test of the emitted loop text: varName testOp bound. -/
def testHolds (testOp : String) (l r : Int) : Bool :=
  if testOp == "<=" then decide (l ≤ r)
  else if testOp == "<" then decide (l < r)
  else if testOp == ">=" then decide (r ≤ l)
  else if testOp == ">" then decide (r < l)
  else false

/-- Iterations of the emitted for loop: test the loop variable against
the bound, run the body, then add the step to the loop variable; the
bound and step expressions are re-evaluated each iteration as in the
emitted text. -/
def runJsForIter (fuel : Nat) (loop : JsFor) (env : JEnv) : Option JEnv :=
  match fuel with
  | 0 => none
  | f + 1 =>
    match evalJ f env loop.bound with
    | none => none
    | some (b, env1) =>
      if testHolds loop.testOp (lookupVar env1 loop.varName) b then
        match runJBlock f env1 loop.body with
        | none => none
        | some env2 =>
          match evalJ f env2 loop.step with
          | none => none
          | some (s, env3) =>
            runJsForIter f loop
              (setVar env3 loop.varName (lookupVar env3 loop.varName + s))
      else some env1

/-- Running the emitted loop: evaluate the start expression, bind the
loop variable, then iterate. -/
def runJsFor (fuel : Nat) (loop : JsFor) (env : JEnv) : Option JEnv :=
  match evalJ fuel env loop.start with
  | none => none
  | some (v, env1) => runJsForIter fuel loop (setVar env1 loop.varName v)

/-- The AST of for i = 1, 5 do sum = sum + i end. -/
def sumLoopNode : NumericForStatement :=
  { varName := "i"
    start := .num 1
    stop := .num 5
    step := none
    body := [.exprStmt (.assign (.ident "sum")
      (.binary "+" (.ident "sum") (.ident "i")))] }

/-- The AST of for i = 10, 1, -2 do probe = probe + 1 end (the explicit
negative step is the unary-minus expression on the literal 2). -/
def descLoopNode : NumericForStatement :=
  { varName := "i"
    start := .num 10
    stop := .num 1
    step := some (.unary "-" (.num 2))
    body := [.exprStmt (.assign (.ident "probe")
      (.binary "+" (.ident "probe") (.num 1)))] }

end ForCompile

namespace Optim

/-!
Embedding of AdvancedCompiler code generation (the statement and
expression emitters needed for the claim input) and its textual
optimization passes optimize, eliminateDeadCode, foldConstants,
inlineSmallFunctions and minimizeCode from src/luaui.js, which operate
on the generated code text with global regex replacements.
-/

/-- The opening brace character (written via its code point so that no
brace appears inside a literal). -/
def lbraceC : Char := Char.ofNat 123

/-- The closing brace character. -/
def rbraceC : Char := Char.ofNat 125

/-- Whitespace for the regex class backslash-s (space, tab, carriage
return, newline cover every character the generated code contains). -/
def isWsChar (c : Char) : Bool :=
  c == ' ' || c == '\t' || c == '\n' || c == '\r'

/-- Word characters for the regex word-boundary assertion. -/
def isWordChar (c : Char) : Bool :=
  c.isAlpha || c.isDigit || c == '_'

def skipWsChars (cs : List Char) : List Char := cs.dropWhile isWsChar

/-- Drop a literal character sequence from the front, or fail. -/
def dropLit : List Char → List Char → Option (List Char)
  | [], cs => some cs
  | _, [] => none
  | l :: ls, c :: cs => if c == l then dropLit ls cs else none

/-- One attempted match of the dead-code regex
if backslash-s* ( backslash-s* false backslash-s* ) backslash-s*
open-brace [^close-brace]* close-brace
at the head of the character list; on success returns the remainder
after the match (the greedy inner class ends at the first closing
brace). -/
def matchDeadCode (cs : List Char) : Option (List Char) :=
  (dropLit ['i', 'f'] cs).bind fun cs1 =>
  (dropLit ['('] (skipWsChars cs1)).bind fun cs2 =>
  (dropLit ['f', 'a', 'l', 's', 'e'] (skipWsChars cs2)).bind fun cs3 =>
  (dropLit [')'] (skipWsChars cs3)).bind fun cs4 =>
  (dropLit [lbraceC] (skipWsChars cs4)).bind fun cs5 =>
  let inner := cs5.dropWhile (fun c => !(c == rbraceC))
  dropLit [rbraceC] inner

/-- Left-to-right global replacement of the dead-code pattern with the
empty string, continuing after each match as a JS global replace does. -/
def edcAux (fuel : Nat) (cs : List Char) : List Char :=
  match fuel with
  | 0 => cs
  | f + 1 =>
    match matchDeadCode cs with
    | some rest => edcAux f rest
    | none =>
      match cs with
      | [] => []
      | c :: rest => c :: edcAux f rest

/-- eliminateDeadCode: the global regex replacement removing every
if (false) block from the generated code text. -/
def eliminateDeadCode (code : String) : String :=
  String.mk (edcAux (code.length + 1) code.toList)

/-- Match of the pattern word-boundary KEYWORD backslash-s* OPERATOR
backslash-s* (the true-and-prefix and false-or-prefix folds); prev is
the character before the match position, for the word boundary. -/
def matchKwOpBefore (kw op : List Char) (prev : Option Char)
    (cs : List Char) : Option (List Char) :=
  if (prev.map isWordChar).getD false then none
  else
    (dropLit kw cs).bind fun cs1 =>
    (dropLit op (skipWsChars cs1)).bind fun cs2 =>
    some (skipWsChars cs2)

/-- Match of the pattern backslash-s* OPERATOR backslash-s* KEYWORD
word-boundary (the and-true-suffix and or-false-suffix folds). -/
def matchOpKwAfter (op kw : List Char) (cs : List Char) :
    Option (List Char) :=
  (dropLit op (skipWsChars cs)).bind fun cs1 =>
  (dropLit kw (skipWsChars cs1)).bind fun cs2 =>
  match cs2 with
  | [] => some []
  | c :: _ => if isWordChar c then none else some cs2

/-- One global replace-with-empty pass for a prefix-form pattern. -/
def foldBeforeAux (kw op : List Char) (fuel : Nat) (prev : Option Char)
    (cs : List Char) : List Char :=
  match fuel with
  | 0 => cs
  | f + 1 =>
    match matchKwOpBefore kw op prev cs with
    | some rest => foldBeforeAux kw op f prev rest
    | none =>
      match cs with
      | [] => []
      | c :: rest => c :: foldBeforeAux kw op f (some c) rest

/-- One global replace-with-empty pass for a suffix-form pattern. -/
def foldAfterAux (op kw : List Char) (fuel : Nat) (cs : List Char) :
    List Char :=
  match fuel with
  | 0 => cs
  | f + 1 =>
    match matchOpKwAfter op kw cs with
    | some rest => foldAfterAux op kw f rest
    | none =>
      match cs with
      | [] => []
      | c :: rest => c :: foldAfterAux op kw f rest

/-- foldConstants: the four sequential global regex replacements of the
source (strip a true conjunct before or after, strip a false disjunct
before or after). -/
def foldConstants (code : String) : String :=
  let n := code.length + 1
  let c1 := foldBeforeAux ['t', 'r', 'u', 'e'] ['&', '&'] n none code.toList
  let c2 := foldAfterAux ['&', '&'] ['t', 'r', 'u', 'e'] n c1
  let c3 := foldBeforeAux ['f', 'a', 'l', 's', 'e'] ['|', '|'] n none c2
  let c4 := foldAfterAux ['|', '|'] ['f', 'a', 'l', 's', 'e'] n c3
  String.mk c4

/-- inlineSmallFunctions is an unimplemented TODO in the source and
returns the code unchanged. -/
def inlineSmallFunctions (code : String) : String := code

/-- Replace any whitespace run by a single space. -/
def collapseWsAux (fuel : Nat) (cs : List Char) : List Char :=
  match fuel with
  | 0 => cs
  | f + 1 =>
    match cs with
    | [] => []
    | c :: rest =>
      if isWsChar c then ' ' :: collapseWsAux f (rest.dropWhile isWsChar)
      else c :: collapseWsAux f rest

/-- Delete a semicolon (with trailing whitespace) directly before a
closing brace. -/
def semiBraceAux (fuel : Nat) (cs : List Char) : List Char :=
  match fuel with
  | 0 => cs
  | f + 1 =>
    match cs with
    | [] => []
    | c :: rest =>
      if c == ';' then
        let rest' := rest.dropWhile isWsChar
        match rest' with
        | b :: tail => if b == rbraceC then rbraceC :: semiBraceAux f tail
                       else c :: semiBraceAux f rest
        | [] => c :: semiBraceAux f rest
      else c :: semiBraceAux f rest

/-- Delete whitespace after an opening brace. -/
def braceWsAux (fuel : Nat) (cs : List Char) : List Char :=
  match fuel with
  | 0 => cs
  | f + 1 =>
    match cs with
    | [] => []
    | c :: rest =>
      if c == lbraceC then c :: braceWsAux f (rest.dropWhile isWsChar)
      else c :: braceWsAux f rest

/-- Delete whitespace before a closing brace. -/
def wsBraceAux (fuel : Nat) (cs : List Char) : List Char :=
  match fuel with
  | 0 => cs
  | f + 1 =>
    match cs with
    | [] => []
    | c :: rest =>
      if isWsChar c then
        let rest' := cs.dropWhile isWsChar
        match rest' with
        | b :: tail =>
          if b == rbraceC then rbraceC :: wsBraceAux f tail
          else c :: wsBraceAux f rest
        | [] => c :: wsBraceAux f rest
      else c :: wsBraceAux f rest

/-- Delete whitespace after a comma. -/
def commaWsAux (fuel : Nat) (cs : List Char) : List Char :=
  match fuel with
  | 0 => cs
  | f + 1 =>
    match cs with
    | [] => []
    | c :: rest =>
      if c == ',' then c :: commaWsAux f (rest.dropWhile isWsChar)
      else c :: commaWsAux f rest

/-- minimizeCode: whitespace collapsing and punctuation tightening plus a
final trim, mirroring the chained replacements of the source. -/
def minimizeCode (code : String) : String :=
  let n := code.length + 1
  let c1 := collapseWsAux n code.toList
  let c2 := semiBraceAux n c1
  let c3 := braceWsAux n c2
  let c4 := wsBraceAux n c3
  let c5 := commaWsAux n c4
  (String.mk c5).trim

/-- The optimization option flags of AdvancedCompiler. -/
structure OptimOptions where
  deadCodeElimination : Bool
  constantFolding : Bool
  inlineSmallFns : Bool
  minimizeCodeOpt : Bool
  deriving DecidableEq, Repr

/-- The constructor defaults of this.optimizations. -/
def defaultOptim : OptimOptions :=
  { deadCodeElimination := true
    constantFolding := true
    inlineSmallFns := true
    minimizeCodeOpt := false }

/-- All passes disabled. -/
def allOff : OptimOptions :=
  { deadCodeElimination := false
    constantFolding := false
    inlineSmallFns := false
    minimizeCodeOpt := false }

/-- optimize: apply each enabled pass in order to the generated code
text. -/
def optimize (opts : OptimOptions) (code : String) : String :=
  let c1 := if opts.deadCodeElimination then eliminateDeadCode code else code
  let c2 := if opts.constantFolding then foldConstants c1 else c1
  let c3 := if opts.inlineSmallFns then inlineSmallFunctions c2 else c2
  if opts.minimizeCodeOpt then minimizeCode c3 else c3

/-- Literal values of AdvancedCompiler AST literal nodes. -/
inductive ALit where
  | strL (s : String)
  | numL (n : Int)
  | boolL (b : Bool)
  | nullL
  deriving DecidableEq, Repr

/-- Expressions needed to compile the claim input: literals and
identifiers. -/
inductive AExpr where
  | lit (v : ALit)
  | ident (name : String)
  deriving DecidableEq, Repr

/-- JSON.stringify on a string value: double quotes around the content
with backslash escaping of quotes and backslashes (the only escapes the
generated programs here can need). -/
def jsonEscape : List Char → List Char
  | [] => []
  | c :: rest =>
    if c == '"' then '\\' :: '"' :: jsonEscape rest
    else if c == '\\' then '\\' :: '\\' :: jsonEscape rest
    else c :: jsonEscape rest

def jsonStringify (s : String) : String :=
  "\"" ++ String.mk (jsonEscape s.toList) ++ "\""

/-- compileLiteral: null prints as null, strings JSON-stringify, numbers
and booleans print with String(...). -/
def compileLiteral : ALit → String
  | .nullL => "null"
  | .strL s => jsonStringify s
  | .numL n => toString n
  | .boolL b => if b then "true" else "false"

/-- The special built-in tag identifiers of compileIdentifier. -/
def specialTags : List String :=
  ["div", "span", "p", "h1", "h2", "h3", "h4", "h5", "h6", "button",
   "input", "textarea", "select", "option", "img", "a", "ul", "ol", "li",
   "table", "tr", "td", "th", "thead", "tbody", "form", "label", "br",
   "hr", "canvas", "svg", "audio", "video"]

/-- The tree-builder function text a special tag identifier lowers to. -/
def tagBuilderText (tag : String) : String :=
  "(function(props, ...children) \x7b return h(\"" ++ tag ++
    "\", props || \x7b\x7d, children.flat()); \x7d)"

/-- compileIdentifier: special tags lower to builder functions, all other
names pass through. -/
def compileIdentifier (name : String) : String :=
  if specialTags.contains name then tagBuilderText name else name

def compileAExpr : AExpr → String
  | .lit v => compileLiteral v
  | .ident name => compileIdentifier name

/-- compileVariableDeclaration: the kind keyword, the comma-joined
declarators (each the compiled id, with an initializer when present),
and a final semicolon. -/
def compileVariableDeclaration (kind : String)
    (decls : List (String × Option AExpr)) : String :=
  let parts := decls.map fun (name, init) =>
    match init with
    | some e => compileIdentifier name ++ " = " ++ compileAExpr e
    | none => compileIdentifier name
  kind ++ " " ++ String.intercalate ", " parts ++ ";"

/-- Reference semantics for the generated fragment shape the claim input
compiles to: a program of exactly one string-literal let declaration
binds its variable to the literal content. Programs of any other shape
are outside this reference fragment. -/
def letStringBinding (code : String) : Option (String × String) :=
  let cs := code.toList
  (dropLit ['l', 'e', 't', ' '] cs).bind fun cs1 =>
  let name := cs1.takeWhile isWordChar
  let cs2 := cs1.dropWhile isWordChar
  if name.isEmpty then none else
  (dropLit [' ', '=', ' ', '"'] cs2).bind fun cs3 =>
  let content := cs3.takeWhile (fun c => !(c == '"'))
  let cs4 := cs3.dropWhile (fun c => !(c == '"'))
  (dropLit ['"', ';'] cs4).bind fun cs5 =>
  if cs5.isEmpty ∧ content.all (fun c => !(c == '\\')) then
    some (String.mk name, String.mk content)
  else none

/-- The compiled text of the claim input, the variable declaration
local s = "if (false) \x7bx\x7d" (the parser maps the local kind to
let). -/
def failingDecl : String :=
  compileVariableDeclaration "let"
    [("s", some (.lit (.strL "if (false) \x7bx\x7d")))]

end Optim

namespace Reactive

/-!
Embedding of AdvancedReactiveSystem of src/luaui.js: track, trigger,
effect, cleanup, the reactive proxy set handler, queueJob and flushJobs,
and the wrapper objects returned by computed and ref. Targets are
identified by numbers; effect bodies are modeled as the list of
(target, key) reads they perform per run together with the value they
return, which is all the engine observes of them.
-/

/-- Scheduler option of an effect: absent (plain effects made by
effect() with no options), or the computed scheduler closure created by
computed(), which captures its cell. -/
inductive SchedKind where
  | noSched
  | computedSched (cid : Nat)
  deriving DecidableEq, Repr

/-- An effect record: its uid, the computed flag, the scheduler option,
whether it is active, the (target, key) reads its function performs on
each run, and the value its function returns. -/
structure EffectDef where
  id : Nat
  isComputed : Bool
  sched : SchedKind
  active : Bool
  reads : List (Nat × String)
  retVal : Int
  deriving DecidableEq, Repr

/-- Execution log entries: an effect function invocation, or a scheduler
invocation in its place. -/
inductive LogEntry where
  | ran (id : Nat)
  | schedRan (id : Nat)
  deriving DecidableEq, Repr

/-- The memo state of one computed() wrapper: the dirty flag and
memoized value captured by its closures, the identity the wrapper has as
a trigger target, and the uid of its lazy runner effect. -/
structure ComputedCell where
  dirty : Bool
  memo : Int
  targetId : Nat
  runnerId : Nat
  deriving DecidableEq, Repr

/-- The reactive system state: targetMap (target, then key, then the
ordered dependency set of effect uids), the effect registry, the heap of
reactive target property values, the currently running effect and the
effect stack, the scheduler queue state, and the execution log. -/
structure RSys where
  deps : List (Nat × List (String × List Nat))
  effects : List EffectDef
  arrayTargets : List Nat
  heap : List (Nat × List (String × Int))
  currentEffect : Option Nat
  effectStack : List Nat
  queue : List Nat
  isFlushPending : Bool
  log : List LogEntry

/-- Dependency set of (target, key), empty when untracked. -/
def getDep (sys : RSys) (t : Nat) (k : String) : List Nat :=
  match sys.deps.lookup t with
  | none => []
  | some m => (m.lookup k).getD []

/-- The tracked keys of a target (the keys of its depsMap). -/
def depKeys (sys : RSys) (t : Nat) : List String :=
  match sys.deps.lookup t with
  | none => []
  | some m => m.map Prod.fst

/-- Replace the dependency set of (target, key). -/
def setDep (sys : RSys) (t : Nat) (k : String) (dep : List Nat) : RSys :=
  let m := (sys.deps.lookup t).getD []
  let m' := if m.lookup k = none then m ++ [(k, dep)]
            else m.map fun (k', d) => if k' = k then (k', dep) else (k', d)
  if sys.deps.lookup t = none then
    { sys with deps := sys.deps ++ [(t, m')] }
  else
    { sys with deps := sys.deps.map fun (t', m0) =>
        if t' = t then (t', m') else (t', m0) }

/-- Effect registry lookup by uid. -/
def lookupEffect (sys : RSys) (id : Nat) : Option EffectDef :=
  sys.effects.find? (fun ed => ed.id = id)

/-- track(target, type, key): a no-op without a current effect; otherwise
add the current effect to the dependency set of (target, key) unless
already present. The deps back-list each effect keeps is modeled
implicitly: cleanup removes the effect from every set it is a member
of, which is exactly the content of that back-list. -/
def track (sys : RSys) (t : Nat) (k : String) : RSys :=
  match sys.currentEffect with
  | none => sys
  | some cur =>
    let dep := getDep sys t k
    if cur ∈ dep then sys else setDep sys t k (dep ++ [cur])

/-- cleanup(effect): remove the effect from every dependency set it
belongs to. -/
def cleanup (sys : RSys) (id : Nat) : RSys :=
  { sys with deps := sys.deps.map fun (t, m) =>
      (t, m.map fun (k, dep) => (k, dep.filter (fun i => !(i = id)))) }

/-- The effect function: when active, clear previous dependencies, push
onto the effect stack and become the current effect, perform the reads
of the body (each read tracks), then pop and restore the previous
current effect. The invocation is recorded in the log. -/
def runEffect (sys : RSys) (id : Nat) : RSys :=
  match lookupEffect sys id with
  | none => sys
  | some ed =>
    if ed.active then
      let s1 := { sys with log := sys.log ++ [LogEntry.ran id] }
      let s2 := cleanup s1 id
      let s3 := { s2 with
        currentEffect := some id
        effectStack := s2.effectStack ++ [id] }
      let s4 := ed.reads.foldl (fun s tk => track s tk.1 tk.2) s3
      let stack' := s4.effectStack.dropLast
      { s4 with effectStack := stack', currentEffect := stack'.getLast? }
    else sys

/-- Decimal parse of a property key (the numeric coercion the JS
comparison key >= newValue performs on array index keys; keys that are
not numerals coerce to NaN and fail every comparison). -/
def keyToNat : List Char → Option Nat
  | [] => none
  | cs =>
    if cs.all (fun c => c.isDigit) then
      some (cs.foldl (fun acc c => acc * 10 + (c.toNat - 48)) 0)
    else none

/-- Numeric comparison used in the length-trigger branch. -/
def keyGE (k : String) (v : Int) : Bool :=
  match keyToNat k.toList with
  | some n => (v ≤ (n : Int))
  | none => false

/-- Computed cell state lookup inside the system is not needed: cells
are passed explicitly, as the closures of computed() capture them.
The cells reachable from schedulers are carried in this table so the
scheduler of a subscribed computed runner can reach its cell. -/
structure RWorld where
  sys : RSys
  cells : List (Nat × ComputedCell)

def lookupCell (w : RWorld) (cid : Nat) : Option ComputedCell :=
  w.cells.lookup cid

def setCell (w : RWorld) (cid : Nat) (c : ComputedCell) : RWorld :=
  { w with cells := w.cells.map fun (i, c0) =>
      if i = cid then (i, c) else (i, c0) }

/-- Whether the registered effect with this uid carries the computed
flag (the test the add closure of trigger performs). -/
def isComputedId (sys : RSys) (id : Nat) : Bool :=
  ((lookupEffect sys id).map (fun ed => ed.isComputed)).getD false

/-- JS Set insertion over a list: keep the first occurrence of each
element, in insertion order. -/
def dedupAcc : List Nat → List Nat → List Nat
  | [], acc => acc
  | x :: rest, acc =>
    if acc.contains x then dedupAcc rest acc
    else dedupAcc rest (acc ++ [x])

mutual

/-- trigger(target, type, key, newValue): collect the subscribers of
(target, key), plus length-related subscribers for array targets, into
a computed-runner set and a plain-effect set, skipping the currently
running effect; then invoke every computed runner (scheduler if present)
before any plain effect. -/
def trigger (fuel : Nat) (w : RWorld) (ty : String) (t : Nat) (k : String)
    (newValue : Int) : RWorld :=
  match fuel with
  | 0 => w
  | f + 1 =>
    if (w.sys.deps.lookup t).isNone then w
    else
      let dep := getDep w.sys t k
      -- the extra dependency sets visited by the array branches
      let extra :=
        if ty == "set" && w.sys.arrayTargets.contains t && k == "length" then
          ((depKeys w.sys t).filter
            (fun k' => k' == "length" || keyGE k' newValue)).flatMap
            (fun k' => getDep w.sys t k')
        else if ty == "add" && w.sys.arrayTargets.contains t then
          getDep w.sys t "length"
        else []
      let all := dep ++ extra
      let notCur := fun id => !(some id == w.sys.currentEffect)
      -- add(): partition into the two insertion-ordered sets
      let computedRunners := dedupAcc
        (all.filter fun id => notCur id && isComputedId w.sys id) []
      let plain := dedupAcc
        (all.filter fun id => notCur id && !(isComputedId w.sys id)) []
      let w1 := runQueue f w computedRunners
      runQueue f w1 plain

/-- Invoke each pending effect in order: its scheduler when it has one,
else the effect function itself. -/
def runQueue (fuel : Nat) (w : RWorld) (queue : List Nat) : RWorld :=
  match fuel with
  | 0 => w
  | f + 1 =>
    match queue with
    | [] => w
    | id :: rest => runQueue f (runOne f w id) rest

/-- One invocation from trigger: a plain effect re-runs its function; a
computed runner runs its scheduler, which sets the dirty flag (when not
already dirty) and triggers the subscribers of the wrapper value. -/
def runOne (fuel : Nat) (w : RWorld) (id : Nat) : RWorld :=
  match fuel with
  | 0 => w
  | f + 1 =>
    match lookupEffect w.sys id with
    | none => w
    | some ed =>
      match ed.sched with
      | .noSched => { w with sys := runEffect w.sys id }
      | .computedSched cid =>
        let w1 := { w with sys :=
          { w.sys with log := w.sys.log ++ [LogEntry.schedRan id] } }
        match lookupCell w1 cid with
        | none => w1
        | some cell =>
          if cell.dirty then w1
          else
            let w2 := setCell w1 cid { cell with dirty := true }
            trigger f w2 "set" cell.targetId "value" 0

end

/-- Heap read of a reactive target property. -/
def heapGet (sys : RSys) (t : Nat) (k : String) : Option Int :=
  (sys.heap.lookup t).bind fun m => m.lookup k

/-- Heap write of a reactive target property. -/
def heapSet (sys : RSys) (t : Nat) (k : String) (v : Int) : RSys :=
  let m := (sys.heap.lookup t).getD []
  let m' := if m.lookup k = none then m ++ [(k, v)]
            else m.map fun (k', w) => if k' = k then (k', v) else (k', w)
  if sys.heap.lookup t = none then
    { sys with heap := sys.heap ++ [(t, m')] }
  else
    { sys with heap := sys.heap.map fun (t', m0) =>
        if t' = t then (t', m') else (t', m0) }

/-- The reactive proxy set handler: read the old value, perform the
write, and trigger when the value changed (for these integer-valued
properties the object-typed special case of the source does not
apply). -/
def reactiveSet (fuel : Nat) (w : RWorld) (t : Nat) (k : String) (v : Int) :
    RWorld :=
  let oldV := heapGet w.sys t k
  let w1 := { w with sys := heapSet w.sys t k v }
  if oldV ≠ some v then trigger fuel w1 "set" t k v else w1

/-- The reactive proxy get handler: track then read. -/
def reactiveGet (sys : RSys) (t : Nat) (k : String) : RSys × Option Int :=
  (track sys t k, heapGet sys t k)

/-- effect(fn, options): register the effect record and, unless lazy,
run it immediately. -/
def effectAPI (w : RWorld) (ed : EffectDef) (lazy : Bool) : RWorld :=
  let w1 := { w with sys := { w.sys with effects := w.sys.effects ++ [ed] } }
  if lazy then w1 else { w1 with sys := runEffect w1.sys ed.id }

/-- queueJob: enqueue a job once (trigger never calls this for plain
effects; it is the machinery behind the schedulers that components
install, kept here to show the claim scenarios leave it untouched). -/
def queueJob (sys : RSys) (id : Nat) : RSys :=
  if sys.queue.contains id then sys
  else { sys with queue := sys.queue ++ [id], isFlushPending := true }

/-- flushJobs: drain a snapshot of the queue in uid order, skipping jobs
that became inactive. -/
def flushJobs (sys : RSys) : RSys :=
  let snapshot := (sys.queue.mergeSort (fun a b => a ≤ b))
  let sys1 := { sys with queue := [], isFlushPending := false }
  snapshot.foldl
    (fun s id =>
      match lookupEffect s id with
      | some ed => if ed.active then runEffect s id else s
      | none => runEffect s id)
    sys1

/-- Errors observable from JS execution. -/
inductive JsErr where
  | typeError (msg : String)
  deriving DecidableEq, Repr

/-- The own property keys defined by the object literal that computed()
returns: only the value accessor pair. The same holds for the literal
ref() returns. -/
def wrapperOwnKeys : List String := ["value"]

/-- Reading wrapper.value on the object computed() returns: when dirty,
invoke the runner (the lazy getter effect) and memoize its result,
clearing the dirty flag; then evaluate this.track(computed, get, value).
The receiver is the plain wrapper object, so the track lookup is against
the wrapper own keys; track is not among them, the lookup yields
undefined, and the call site throws a TypeError. The ok branch is what
would run if the wrapper had a track method. -/
def computedGetValue (w : RWorld) (cell : ComputedCell) :
    Except JsErr Int × RWorld × ComputedCell :=
  let (v, w1, cell1) :=
    if cell.dirty then
      let sys' := runEffect w.sys cell.runnerId
      let v := ((lookupEffect w.sys cell.runnerId).map
        (fun ed => ed.retVal)).getD 0
      (v, { w with sys := sys' }, { cell with memo := v, dirty := false })
    else (cell.memo, w, cell)
  if wrapperOwnKeys.contains "track" then
    (.ok v, { w1 with sys := track w1.sys cell.targetId "value" }, cell1)
  else
    (.error (.typeError "this.track is not a function"), w1, cell1)

/-- Reading wrapper.value on the object ref() returns: the getter first
evaluates this.track(this, get, value) with the plain wrapper as
receiver; the wrapper has no track property, so the read throws before
returning the captured value. -/
def refGetValue (captured : Int) : Except JsErr Int :=
  if wrapperOwnKeys.contains "track" then .ok captured
  else .error (.typeError "this.track is not a function")

end Reactive

namespace Renderer

/-!
Embedding of the DOMRenderer of src/unnamed/part_000: createElement,
createComponent, updateElement, patch, isDifferentNodeType,
updateComponent, updateChildren and unmount. The render target is
modeled as handles (numbers) with child lists; every mutating DOM call
appends an operation to a trace. JS object identity, where the code
compares with strict inequality, is modeled by identity numbers on
object- and function-valued props.
-/

/-- Prop values: primitives compare by value, objects and functions by
identity, exactly as the strict comparisons of the source do. -/
inductive PropVal where
  | str (s : String)
  | num (n : Int)
  | boolV (b : Bool)
  | obj (oid : Nat)
  | fn (fid : Nat)
  deriving DecidableEq, Repr

/-- JS truthiness of a prop value. -/
def PropVal.truthy : PropVal → Bool
  | .str s => !(s == "")
  | .num n => !(n == 0)
  | .boolV b => b
  | .obj _ => true
  | .fn _ => true

/-- Virtual nodes. A node carries the constructor fields of the VNode
class: type (a tag name, or the TEXT, COMPONENT, FRAGMENT constants),
props, children, the element back-reference and an identity (vid, the
JS object identity used by the mountedComponents map). The prim
constructor is a non-VNode child (a raw string or number child); the
instanceof VNode tests of the source distinguish the two. -/
inductive VN where
  | node (ty : String) (props : List (String × PropVal))
      (children : List VN) (element : Option Nat) (vid : Nat)
  | prim (s : String)

def VN.isNode : VN → Bool
  | .node _ _ _ _ _ => true
  | .prim _ => false

def VN.ty : VN → String
  | .node t _ _ _ _ => t
  | .prim _ => ""

def VN.props : VN → List (String × PropVal)
  | .node _ p _ _ _ => p
  | .prim _ => []

def VN.children : VN → List VN
  | .node _ _ c _ _ => c
  | .prim _ => []

def VN.element : VN → Option Nat
  | .node _ _ _ e _ => e
  | .prim _ => none

def VN.vid : VN → Nat
  | .node _ _ _ _ i => i
  | .prim _ => 0

def VN.withElement : VN → Option Nat → VN
  | .node t p c _ i, e => .node t p c e i
  | .prim s, _ => .prim s

/-- The key field set by the VNode constructor: props.key when truthy,
else null. -/
def VN.key (v : VN) : Option PropVal :=
  match v.props.lookup "key" with
  | some p => if p.truthy then some p else none
  | none => none

def VN.isText (v : VN) : Bool := v.ty == "TEXT"
def VN.isComponent (v : VN) : Bool := v.ty == "COMPONENT"
def VN.isFragment (v : VN) : Bool := v.ty == "FRAGMENT"

/-- The string content of a text vnode: its first child coerced to a
string (String(children[0]) in createElement and the patch text
branch). -/
def VN.text0 : VN → String
  | .node _ _ (c :: _) _ _ =>
    match c with
    | .prim s => s
    | .node _ _ _ _ _ => ""
  | _ => ""

/-- Render-target operations; the last two record component lifecycle
processing (they are not render-target mutations). -/
inductive DomOp where
  | createElement (tag : String) (id : Nat)
  | createTextNode (s : String) (id : Nat)
  | createFragment (id : Nat)
  | appendChild (parent child : Nat)
  | removeChild (parent child : Nat)
  | replaceChild (parent newId oldId : Nat)
  | setTextContent (id : Nat) (s : String)
  | setProp (id : Nat) (key : String)
  | setAttr (id : Nat) (key : String)
  | removeAttr (id : Nat) (key : String)
  | setStyle (id : Nat)
  | addListener (id : Nat) (event : String)
  | removeListener (id : Nat) (event : String)
  | willUnmount (instId : Nat)
  | rendererHook (name : String) (instId : Nat)
  deriving DecidableEq, Repr

/-- Whether an operation mutates the render target. -/
def DomOp.isMutation : DomOp → Bool
  | .willUnmount _ => false
  | .rendererHook _ _ => false
  | _ => true

/-- A mounted component instance: its identity, its props, whether it
defines componentWillUnmount, its last rendered tree, its element, and
its render function (threaded through a fresh-identity supply, since
each JS render call allocates fresh object and closure identities). -/
structure Instance where
  instId : Nat
  props : List (String × PropVal)
  hasWillUnmount : Bool
  vnode : VN
  element : Option Nat
  render : Nat → VN × Nat

/-- A registered component class: constructing an instance from props
under a fresh-identity supply. -/
def CompClass : Type := List (String × PropVal) → Nat → Instance × Nat

/-- Renderer plus render-target state: the fresh handle counter, the
fresh identity supply, the target child lists, the mountedComponents
map keyed by vnode identity, the renderer hook types that have
registered callbacks, the component registry, and the operation
trace. -/
structure RState where
  nextId : Nat
  nextObjId : Nat
  domChildren : List (Nat × List Nat)
  mounted : List (Nat × Instance)
  hooksRegistered : List String
  registry : String → Option CompClass
  trace : List DomOp

/-- Errors raised by renderer execution: a null element dereference (a
JS TypeError), a missing component class (the explicit throw of
createComponent), or fuel exhaustion of the embedding. -/
inductive RErr where
  | nullElement
  | componentNotFound (name : String)
  | noFuel
  deriving DecidableEq, Repr

def emit (st : RState) (op : DomOp) : RState :=
  { st with trace := st.trace ++ [op] }

/-- executeHooks: run the renderer callbacks registered for a hook type
(observable only when callbacks are registered). -/
def executeHooks (st : RState) (ty : String) (instId : Nat) : RState :=
  if st.hooksRegistered.contains ty then
    emit st (.rendererHook ty instId)
  else st

def domChildrenOf (st : RState) (id : Nat) : List Nat :=
  (st.domChildren.lookup id).getD []

def setDomChildren (st : RState) (id : Nat) (cs : List Nat) : RState :=
  if st.domChildren.lookup id = none then
    { st with domChildren := st.domChildren ++ [(id, cs)] }
  else
    { st with domChildren := st.domChildren.map fun (i, cs0) =>
        if i = id then (i, cs) else (i, cs0) }

/-- parentNode of a handle: the handle whose child list contains it. -/
def parentOf (st : RState) (id : Nat) : Option Nat :=
  (st.domChildren.find? (fun p => p.2.contains id)).map Prod.fst

/-- document.createElement. -/
def newElement (st : RState) (tag : String) : Nat × RState :=
  let id := st.nextId
  let st1 := { st with nextId := id + 1 }
  (id, setDomChildren (emit st1 (.createElement tag id)) id [])

/-- document.createTextNode. -/
def newTextNode (st : RState) (s : String) : Nat × RState :=
  let id := st.nextId
  let st1 := { st with nextId := id + 1 }
  (id, emit st1 (.createTextNode s id))

/-- document.createDocumentFragment. -/
def newFragment (st : RState) : Nat × RState :=
  let id := st.nextId
  let st1 := { st with nextId := id + 1 }
  (id, setDomChildren (emit st1 (.createFragment id)) id [])

/-- appendChild. -/
def domAppend (st : RState) (parent child : Nat) : RState :=
  let st1 := setDomChildren st parent (domChildrenOf st parent ++ [child])
  emit st1 (.appendChild parent child)

/-- removeChild. -/
def domRemove (st : RState) (parent child : Nat) : RState :=
  let st1 := setDomChildren st parent
    ((domChildrenOf st parent).filter (fun c => !(c = child)))
  emit st1 (.removeChild parent child)

/-- replaceChild(parent, newChild, oldChild). -/
def domReplace (st : RState) (parent newC oldC : Nat) : RState :=
  let st1 := setDomChildren st parent
    ((domChildrenOf st parent).map (fun c => if c = oldC then newC else c))
  emit st1 (.replaceChild parent newC oldC)

/-- DOM element properties the in-element test of updateElement finds on
the element object (the common reflected properties generated programs
use). -/
def domHasProp (key : String) : Bool :=
  ["id", "value", "title", "href", "src", "type", "checked", "disabled",
   "placeholder", "textContent"].contains key

/-- Lowercase an ASCII letter. -/
def lowerChar (c : Char) : Char :=
  if 'A' ≤ c ∧ c ≤ 'Z' then Char.ofNat (c.toNat + 32) else c

/-- The event name of an onX prop key (slice(2) lowercased). -/
def eventOf (key : String) : String :=
  String.mk ((key.toList.drop 2).map lowerChar)

/-- Whether a prop key starts with on. -/
def isOnKey (key : String) : Bool :=
  match key.toList with
  | 'o' :: 'n' :: _ => true
  | _ => false

/-- mountedComponents lookup by vnode identity. -/
def mountedGet (st : RState) (vid : Nat) : Option Instance :=
  (st.mounted.find? (fun p => p.1 = vid)).map Prod.snd

def mountedDelete (st : RState) (vid : Nat) : RState :=
  { st with mounted := st.mounted.filter (fun p => !(p.1 = vid)) }

def mountedSet (st : RState) (vid : Nat) (inst : Instance) : RState :=
  { (mountedDelete st vid) with
    mounted := (mountedDelete st vid).mounted ++ [(vid, inst)] }

/-- Emit an operation on an element reference, or fail on a null
element (the JS TypeError). -/
def emitAt (el : Option Nat) (mk : Nat → DomOp) (st : RState) :
    Except RErr RState :=
  match el with
  | some e => .ok (emit st (mk e))
  | none => .error .nullElement

/-- The property-removal pass of updateElement: every old key absent
from the new props is cleared (listener removal for onX keys, style and
class clearing, reflected property clearing when the element has the
property, attribute removal otherwise). -/
def removeOldProps (el : Option Nat) (oldProps newProps : List (String × PropVal))
    (st : RState) : Except RErr RState :=
  match oldProps with
  | [] => .ok st
  | (key, _) :: rest =>
    let step : Except RErr RState :=
      if (newProps.lookup key).isNone then
        if isOnKey key then emitAt el (fun e => .removeListener e (eventOf key)) st
        else if key == "style" then emitAt el (fun e => .setStyle e) st
        else if key == "className" || key == "class" then
          emitAt el (fun e => .setProp e "className") st
        else if domHasProp key then emitAt el (fun e => .setProp e key) st
        else emitAt el (fun e => .removeAttr e key) st
      else .ok st
    match step with
    | .error e => .error e
    | .ok st1 => removeOldProps el rest newProps st1

/-- The property-set pass of updateElement: skip the special keys, and
for every new prop whose value differs (strict comparison: primitives
by value, objects and functions by identity) perform the
listener-swap, style, class, reflected-property or attribute write. -/
def setNewProps (el : Option Nat) (oldProps newProps remaining : List (String × PropVal))
    (st : RState) : Except RErr RState :=
  match remaining with
  | [] => .ok st
  | (key, v) :: rest =>
    let step : Except RErr RState :=
      if key == "key" || key == "ref" || key == "componentType" then .ok st
      else if oldProps.lookup key ≠ some v then
        if isOnKey key then
          let afterRemove :=
            match oldProps.lookup key with
            | some oldV =>
              if oldV.truthy then
                emitAt el (fun e => .removeListener e (eventOf key)) st
              else .ok st
            | none => .ok st
          match afterRemove with
          | .error e => .error e
          | .ok st1 =>
            if v.truthy then
              emitAt el (fun e => .addListener e (eventOf key)) st1
            else .ok st1
        else if key == "style" then emitAt el (fun e => .setStyle e) st
        else if key == "className" || key == "class" then
          emitAt el (fun e => .setProp e "className") st
        else if domHasProp key then emitAt el (fun e => .setProp e key) st
        else emitAt el (fun e => .setAttr e key) st
      else .ok st
    match step with
    | .error e => .error e
    | .ok st1 => setNewProps el oldProps newProps rest st1

/-- updateElement(element, oldProps, newProps): removal pass, set pass,
and the ref handling (the ref callback or ref.current write touches a
user object, not the render target, so no operation is recorded). -/
def updateElement (el : Option Nat) (oldProps newProps : List (String × PropVal))
    (st : RState) : Except RErr RState :=
  match removeOldProps el oldProps newProps st with
  | .error e => .error e
  | .ok st1 => setNewProps el oldProps newProps newProps st1

/-- isDifferentNodeType: different type tags, or component nodes whose
componentType props differ. -/
def isDifferentNodeType (o n : VN) : Bool :=
  if !(o.ty == n.ty) then true
  else if o.isComponent && n.isComponent then
    !(o.props.lookup "componentType" == n.props.lookup "componentType")
  else false

/-- JS truthiness of a child slot (an absent slot is undefined; an empty
raw string child is falsy; element children are objects, always
truthy). -/
def childTruthy : Option VN → Bool
  | none => false
  | some (.prim s) => !(s == "")
  | some (.node _ _ _ _ _) => true

/-- The key map built over a child list: every VNode child with a truthy
key is recorded under its key with its index, later occurrences
overwriting earlier ones as Map.set does. -/
def buildKeyMap (children : List VN) : List (PropVal × VN × Nat) :=
  children.enum.foldl
    (fun acc (p : Nat × VN) =>
      let (index, child) := p
      match child with
      | .node _ _ _ _ _ =>
        match child.key with
        | some k =>
          if (acc.lookup k).isNone then acc ++ [(k, child, index)]
          else acc.map fun (k', e) => if k' = k then (k', child, index) else (k', e)
        | none => acc
      | .prim _ => acc)
    []

mutual

/-- createElement(vnode): text nodes become target text nodes (the
vnode element field is not assigned in this branch, as in the source),
fragments create a fragment container and append their created
children, component vnodes mount a component, and all other type tags
create an element, apply the props through updateElement against empty
old props, and create and append the children. -/
def createElement (fuel : Nat) (v : VN) (st : RState) :
    Except RErr (Nat × VN × RState) :=
  match fuel with
  | 0 => .error .noFuel
  | f + 1 =>
    if v.isText then
      let (id, st1) := newTextNode st v.text0
      .ok (id, v, st1)
    else if v.isFragment then
      let (id, st1) := newFragment st
      match createChildrenInto f v.children id st1 [] with
      | .error e => .error e
      | .ok (cs, st2) =>
        .ok (id, VN.node v.ty v.props cs v.element v.vid, st2)
    else if v.isComponent then
      createComponent f v st
    else
      let (id, st1) := newElement st v.ty
      match updateElement (some id) [] v.props st1 with
      | .error e => .error e
      | .ok st2 =>
        match createChildrenInto f v.children id st2 [] with
        | .error e => .error e
        | .ok (cs, st3) =>
          .ok (id, VN.node v.ty v.props cs (some id) v.vid, st3)

/-- Create and append each child: VNode children recurse through
createElement, raw children become text nodes (null children are
skipped; raw children are modeled as strings). -/
def createChildrenInto (fuel : Nat) (children : List VN) (parent : Nat)
    (st : RState) (acc : List VN) : Except RErr (List VN × RState) :=
  match fuel with
  | 0 => .error .noFuel
  | f + 1 =>
    match children with
    | [] => .ok (acc, st)
    | c :: rest =>
      match c with
      | .node _ _ _ _ _ =>
        match createElement f c st with
        | .error e => .error e
        | .ok (id, c', st1) =>
          createChildrenInto f rest parent (domAppend st1 parent id)
            (acc ++ [c'])
      | .prim s =>
        let (id, st1) := newTextNode st s
        createChildrenInto f rest parent (domAppend st1 parent id)
          (acc ++ [c])

/-- createComponent(vnode): look up the registered class by the
componentType prop (a missing class is the explicit throw of the
source), construct the instance, run the beforeMount renderer hooks,
render, materialize the rendered tree, record the element on the vnode
and the instance, register the instance in mountedComponents under the
vnode identity, and run the afterMount hooks. -/
def createComponent (fuel : Nat) (v : VN) (st : RState) :
    Except RErr (Nat × VN × RState) :=
  match fuel with
  | 0 => .error .noFuel
  | f + 1 =>
    let name :=
      match v.props.lookup "componentType" with
      | some (.str s) => some s
      | _ => none
    match name.bind st.registry with
    | none => .error (.componentNotFound (name.getD "unknown"))
    | some cls =>
      let (inst0, supply1) := cls v.props st.nextObjId
      let st1 := { st with nextObjId := supply1 }
      let st2 := executeHooks st1 "beforeMount" inst0.instId
      let (rendered, supply2) := inst0.render st2.nextObjId
      let st3 := { st2 with nextObjId := supply2 }
      match createElement f rendered st3 with
      | .error e => .error e
      | .ok (el, rendered', st4) =>
        let inst1 := { inst0 with element := some el, vnode := rendered' }
        let v1 := v.withElement (some el)
        let st5 := mountedSet st4 v1.vid inst1
        let st6 := executeHooks st5 "afterMount" inst1.instId
        .ok (el, v1, st6)

end

mutual

/-- unmount(vnode): for a component vnode with a mounted instance, run
the beforeUnmount renderer hooks, call componentWillUnmount when the
instance defines it, and drop the instance from mountedComponents; then
recursively unmount the VNode children. -/
def unmount : VN → RState → RState
  | .prim _, st => st
  | .node ty props children element vid, st =>
    let v : VN := .node ty props children element vid
    let st1 :=
      if v.isComponent then
        match mountedGet st vid with
        | some inst =>
          let s := executeHooks st "beforeUnmount" inst.instId
          let s2 :=
            if inst.hasWillUnmount then emit s (.willUnmount inst.instId)
            else s
          mountedDelete s2 vid
        | none => st
      else st
    unmountList children st1

def unmountList : List VN → RState → RState
  | [], st => st
  | c :: rest, st =>
    let st1 :=
      match c with
      | .node _ _ _ _ _ => unmount c st
      | .prim _ => st
    unmountList rest st1

end

/-- The result patch returns: normally a vnode (or null for a removal);
the instance-missing component-update path returns the raw element that
createComponent produced, as the source does. -/
inductive PatchOut where
  | vnodeOut (v : VN)
  | nullOut
  | elementOut (id : Nat)

mutual

/-- patch(container, oldVNode, newVNode): the initial-render path, the
removal path (unmount before detach), the different-node-type
replacement path (materialize and splice in the replacement, then
unmount the old tree), the text update path, the component update path,
and the same-kind element path (carry the element forward, patch props,
then reconcile children). -/
def patch (fuel : Nat) (container : Option Nat) (old new? : Option VN)
    (st : RState) : Except RErr (PatchOut × RState) :=
  match fuel with
  | 0 => .error .noFuel
  | f + 1 =>
    match old with
    | none =>
      match new? with
      | none => .error .nullElement
      | some n =>
        match createElement f n st with
        | .error e => .error e
        | .ok (id, n', st1) =>
          match container with
          | none => .error .nullElement
          | some c => .ok (.vnodeOut n', domAppend st1 c id)
    | some o =>
      match new? with
      | none =>
        let st1 := unmount o st
        match o.element with
        | some e =>
          match parentOf st1 e with
          | some p => .ok (.nullOut, domRemove st1 p e)
          | none => .ok (.nullOut, st1)
        | none => .ok (.nullOut, st1)
      | some n =>
        if isDifferentNodeType o n then
          match createElement f n st with
          | .error e => .error e
          | .ok (id, n', st1) =>
            let st2 :=
              match o.element with
              | some e =>
                match parentOf st1 e with
                | some p => domReplace st1 p id e
                | none => st1
              | none => st1
            .ok (.vnodeOut n', unmount o st2)
        else if n.isText then
          if !(o.text0 == n.text0) then
            match o.element with
            | some e => .ok (.vnodeOut n, emit st (.setTextContent e n.text0))
            | none => .error .nullElement
          else .ok (.vnodeOut n, st)
        else if n.isComponent then
          updateComponent f o n st
        else
          let n1 := n.withElement o.element
          match updateElement o.element o.props n.props st with
          | .error e => .error e
          | .ok st1 =>
            match updateChildren f o.element o.children n.children st1 with
            | .error e => .error e
            | .ok st2 => .ok (.vnodeOut n1, st2)

/-- updateComponent(oldVNode, newVNode): with no mounted instance fall
back to createComponent; otherwise run beforeUpdate hooks, replace the
instance props, re-render, patch the previous rendered tree against the
new one, carry the element forward, move the instance registration from
the old vnode identity to the new one, and run afterUpdate hooks. -/
def updateComponent (fuel : Nat) (o n : VN) (st : RState) :
    Except RErr (PatchOut × RState) :=
  match fuel with
  | 0 => .error .noFuel
  | f + 1 =>
    match mountedGet st o.vid with
    | none =>
      match createComponent f n st with
      | .error e => .error e
      | .ok (id, _, st1) => .ok (.elementOut id, st1)
    | some inst =>
      let st1 := executeHooks st "beforeUpdate" inst.instId
      let inst1 := { inst with props := n.props }
      let (newRendered, supply1) := inst1.render st1.nextObjId
      let st2 := { st1 with nextObjId := supply1 }
      match patch f none (some inst1.vnode) (some newRendered) st2 with
      | .error e => .error e
      | .ok (out, st3) =>
        let inst2 :=
          match out with
          | .vnodeOut pv => { inst1 with vnode := pv }
          | _ => inst1
        let n1 := n.withElement o.element
        let st4 := mountedSet (mountedDelete st3 o.vid) n1.vid inst2
        let st5 := executeHooks st4 "afterUpdate" inst2.instId
        .ok (.vnodeOut n1, st5)

/-- updateChildren(element, oldChildren, newChildren): build the key
maps for both lists (the source builds them and then never reads them),
snapshot the child handles, and walk the positions up to the longer
length: missing-old appends a created child, missing-new unmounts and
removes, two VNodes patch recursively, two raw children rewrite the
text when changed, and mixed kinds create a replacement, unmount the
old VNode, and splice the replacement in. -/
def updateChildren (fuel : Nat) (el : Option Nat) (olds news : List VN)
    (st : RState) : Except RErr RState :=
  match fuel with
  | 0 => .error .noFuel
  | f + 1 =>
    let oldKeyMap := buildKeyMap olds
    let newKeyMap := buildKeyMap news
    match el with
    | none => .error .nullElement
    | some elId =>
      let childNodes := domChildrenOf st elId
      let maxLength := max olds.length news.length
      -- the maps are in scope for the remainder of the walk but no
      -- branch below consults them, as in the source
      let _ := oldKeyMap
      let _ := newKeyMap
      updateChildrenLoop f elId childNodes olds news 0 maxLength st

def updateChildrenLoop (fuel : Nat) (elId : Nat) (childNodes : List Nat)
    (olds news : List VN) (i maxLength : Nat) (st : RState) :
    Except RErr RState :=
  match fuel with
  | 0 => .error .noFuel
  | f + 1 =>
    if maxLength ≤ i then .ok st
    else
      let oldChild? := olds.get? i
      let newChild? := news.get? i
      let step : Except RErr RState :=
        if !childTruthy oldChild? && childTruthy newChild? then
          -- add new child
          match newChild? with
          | some (.node t p c e vi) =>
            match createElement f (.node t p c e vi) st with
            | .error e' => .error e'
            | .ok (id, _, st1) => .ok (domAppend st1 elId id)
          | some (.prim s) =>
            let (id, st1) := newTextNode st s
            .ok (domAppend st1 elId id)
          | none => .ok st
        else if childTruthy oldChild? && !childTruthy newChild? then
          -- remove old child
          let st1 :=
            match oldChild? with
            | some (.node t p c e vi) => unmount (.node t p c e vi) st
            | _ => st
          match childNodes.get? i with
          | some h => .ok (domRemove st1 elId h)
          | none => .ok st1
        else if childTruthy oldChild? && childTruthy newChild? then
          match oldChild?, newChild? with
          | some (.node t p c e vi), some (.node t' p' c' e' vi') =>
            match patch f (some elId) (some (.node t p c e vi))
                (some (.node t' p' c' e' vi')) st with
            | .error er => .error er
            | .ok (_, st1) => .ok st1
          | some (.prim s), some (.prim s') =>
            if !(s == s') then
              match childNodes.get? i with
              | some h => .ok (emit st (.setTextContent h s'))
              | none => .ok st
            else .ok st
          | some oldC, some newC =>
            -- different kinds: create the replacement, unmount the old
            -- VNode, then splice the replacement in
            let created : Except RErr (Nat × RState) :=
              match newC with
              | .node _ _ _ _ _ =>
                match createElement f newC st with
                | .error er => .error er
                | .ok (id, _, st1) => .ok (id, st1)
              | .prim s =>
                let (id, st1) := newTextNode st s
                .ok (id, st1)
            match created with
            | .error er => .error er
            | .ok (id, st1) =>
              let st2 :=
                match oldC with
                | .node _ _ _ _ _ => unmount oldC st1
                | .prim _ => st1
              match childNodes.get? i with
              | some h => .ok (domReplace st2 elId id h)
              | none => .ok st2
          | _, _ => .ok st
        else .ok st
      match step with
      | .error e => .error e
      | .ok st1 => updateChildrenLoop f elId childNodes olds news (i + 1)
          maxLength st1

end

/-- The operations appended to a trace by a run from st0 to st1. -/
def traceDelta (st0 st1 : RState) : List DomOp :=
  st1.trace.drop st0.trace.length

/-- An empty component registry (no claim scenario mounts a new
component class). -/
def reg0 : String → Option CompClass := fun _ => none

/-! Concrete scenarios for the reconciliation claims. Each initial state
describes a render target as it stands after the old tree was
materialized: the old vnodes carry their assigned handles and the
target child lists match. -/

/-- Old keyed children with three distinct tags (div, span, p) holding
keys 1, 2, 3 and handles 2, 3, 4 under parent 1. -/
def kOldA : VN := .node "div" [("key", .str "1")] [] (some 2) 20
def kOldB : VN := .node "span" [("key", .str "2")] [] (some 3) 21
def kOldC : VN := .node "p" [("key", .str "3")] [] (some 4) 22

/-- The same children as fresh render output, listed in the permuted
order C, A, B (fresh vnode objects, no handles yet). -/
def kNewC : VN := .node "p" [("key", .str "3")] [] none 30
def kNewA : VN := .node "div" [("key", .str "1")] [] none 31
def kNewB : VN := .node "span" [("key", .str "2")] [] none 32

def kState : RState :=
  { nextId := 5, nextObjId := 0
    domChildren := [(0, [1]), (1, [2, 3, 4]), (2, []), (3, []), (4, [])]
    mounted := [], hooksRegistered := [], registry := reg0, trace := [] }

/-- Same-tag variant: three li rows keyed 1, 2, 3 with text content A,
B, C on handles 2, 3, 4 (text node handles 8, 9, 10). -/
def liOldA : VN := .node "li" [("key", .str "1")] [.prim "A"] (some 2) 20
def liOldB : VN := .node "li" [("key", .str "2")] [.prim "B"] (some 3) 21
def liOldC : VN := .node "li" [("key", .str "3")] [.prim "C"] (some 4) 22
def liNewC : VN := .node "li" [("key", .str "3")] [.prim "C"] none 30
def liNewA : VN := .node "li" [("key", .str "1")] [.prim "A"] none 31
def liNewB : VN := .node "li" [("key", .str "2")] [.prim "B"] none 32

def liState : RState :=
  { nextId := 11, nextObjId := 0
    domChildren := [(0, [1]), (1, [2, 3, 4]), (2, [8]), (3, [9]), (4, [10])]
    mounted := [], hooksRegistered := [], registry := reg0, trace := [] }

/-- A materialized component-free element tree for the self-patch
claim: a div with an id attribute and a click handler holding a span
child and a raw text child. -/
def selfSpan : VN := .node "span" [] [.prim "hi"] (some 2) 11
def selfTree : VN :=
  .node "div" [("id", .str "a"), ("onClick", .fn 5)] [selfSpan, .prim "x"]
    (some 1) 10

def selfState : RState :=
  { nextId := 20, nextObjId := 100
    domChildren := [(0, [1]), (1, [2, 3]), (2, [4])]
    mounted := [], hooksRegistered := [], registry := reg0, trace := [] }

/-- A mounted component whose render attaches a click handler: every
render call allocates a fresh closure identity, exactly as a JS render
method creates a fresh function object per call. -/
def cRendered : VN := .node "div" [("onClick", .fn 100)] [] (some 1) 60

def cInstance : Instance :=
  { instId := 50, props := [], hasWillUnmount := false
    vnode := cRendered, element := some 1
    render := fun supply =>
      (VN.node "div" [("onClick", .fn supply)] [] none 61, supply + 1) }

/-- The component vnode of that instance (mounted at handle 1 under
container 0). -/
def cVNode : VN := .node "COMPONENT" [("componentType", .str "Foo")] [] (some 1) 10

def cState : RState :=
  { nextId := 20, nextObjId := 200
    domChildren := [(0, [1]), (1, [])]
    mounted := [(10, cInstance)], hooksRegistered := [], registry := reg0
    trace := [] }

/-- A mounted component with a componentWillUnmount method, for the
unmount-ordering claim. -/
def uInstance : Instance :=
  { instId := 50, props := [], hasWillUnmount := true
    vnode := cRendered, element := some 1
    render := fun supply => (cRendered, supply) }

def uVNode : VN := .node "COMPONENT" [("componentType", .str "Foo")] [] (some 1) 10

def uState : RState :=
  { nextId := 5, nextObjId := 0
    domChildren := [(0, [1]), (1, [])]
    mounted := [(10, uInstance)], hooksRegistered := [], registry := reg0
    trace := [] }

/-- The replacement tree for the different-node-kind path: a plain div
replacing the component. -/
def uReplacement : VN := .node "div" [] [] none 40

end Renderer

namespace Reactive

/-! Concrete scenarios for the reactive claims. -/

/-- A world with one plain reactive object (target 1) whose property a
holds 0, before any effect exists. -/
def c2World0 : RWorld :=
  { sys := { deps := [], effects := [], arrayTargets := []
             heap := [(1, [("a", 0)])]
             currentEffect := none, effectStack := []
             queue := [], isFlushPending := false, log := [] }
    cells := [] }

/-- An effect that reads property a of target 1 and nothing else,
created through effect() with no options. -/
def c2Effect : EffectDef :=
  { id := 10, isComputed := false, sched := .noSched, active := true
    reads := [(1, "a")], retVal := 0 }

/-- Registration runs the effect once and subscribes it to (1, a). -/
def c2Setup : RWorld := effectAPI c2World0 c2Effect false

/-- Two assignments of distinct values to a in the same synchronous
turn, each through the reactive set handler. -/
def c2AfterTwoSets : RWorld :=
  reactiveSet 100 (reactiveSet 100 c2Setup 1 "a" 1) 1 "a" 2

/-- A mutation of the unread property b after the same setup. -/
def c2AfterSetB : RWorld := reactiveSet 100 c2AfterTwoSets 1 "b" 5

/-- The number of invocations of an effect recorded in a log. -/
def entryId : LogEntry → Nat
  | .ran i => i
  | .schedRan i => i

def runsOf (log : List LogEntry) (e : Nat) : Nat :=
  (log.filter (fun en => entryId en = e)).length

/-- The trigger scenario for the ordering claim: target 1 property a
has three subscribers in dependency order: the computed runner 20
(scheduler of computed cell 0, currently clean with memo 5 while its
getter now computes 7), the plain effect 30, and the plain effect 40
which is the currently running effect. -/
def c8World : RWorld :=
  { sys := { deps := [(1, [("a", [20, 30, 40])])]
             effects :=
               [{ id := 20, isComputed := true, sched := .computedSched 0
                  active := true, reads := [(1, "a")], retVal := 7 }
                , { id := 30, isComputed := false, sched := .noSched
                    active := true, reads := [(1, "a")], retVal := 0 }
                , { id := 40, isComputed := false, sched := .noSched
                    active := true, reads := [(1, "a")], retVal := 0 }]
             arrayTargets := [], heap := [(1, [("a", 0)])]
             currentEffect := some 40, effectStack := [40]
             queue := [], isFlushPending := false, log := [] }
    cells := [(0, { dirty := false, memo := 5, targetId := 2, runnerId := 20 })] }

/-- The state after trigger on (1, a). -/
def c8Post : RWorld := trigger 100 c8World "set" 1 "a" 1

/-- The cell as the re-run plain effect sees it (marked dirty by the
computed scheduler during the trigger). -/
def c8PostCell : ComputedCell :=
  { dirty := true, memo := 5, targetId := 2, runnerId := 20 }

/-- An effect is recorded nowhere but under (t0, k0). -/
def subscribedOnlyAt (sys : RSys) (e t0 : Nat) (k0 : String) : Prop :=
  ∀ t k, ¬(t = t0 ∧ k = k0) → e ∉ getDep sys t k

/-- The extra dependency sets the array branches of trigger visit,
written out of the let of trigger so theorems can name it. -/
def triggerExtra (sys : RSys) (ty : String) (t : Nat) (k : String)
    (newValue : Int) : List Nat :=
  if ty == "set" && sys.arrayTargets.contains t && k == "length" then
    ((depKeys sys t).filter
      (fun k' => k' == "length" || keyGE k' newValue)).flatMap
      (fun k' => getDep sys t k')
  else if ty == "add" && sys.arrayTargets.contains t then
    getDep sys t "length"
  else []

/-- Every registered effect is plain: created through effect() with no
scheduler option. -/
def allPlain (w : RWorld) : Prop :=
  ∀ ed ∈ w.sys.effects, ed.sched = SchedKind.noSched

/-- A subscriber id is in a state trigger handles without recursing:
registered and active, a plain effect when not flagged computed, and a
computed runner whose cell is already dirty when flagged computed (the
scheduler then only records its invocation). -/
def c8SubOK (w : RWorld) (id : Nat) : Bool :=
  match lookupEffect w.sys id with
  | none => false
  | some ed =>
    ed.active &&
    match ed.sched with
    | .noSched => !ed.isComputed
    | .computedSched cid =>
      ed.isComputed &&
      match lookupCell w cid with
      | none => false
      | some cell => cell.dirty

/-- The trigger-order scenario with the computed cell already dirty (a
second set of the source before any read recomputes). -/
def c8DirtyWorld : RWorld :=
  { c8World with cells :=
      [(0, { dirty := true, memo := 5, targetId := 2, runnerId := 20 })] }

end Reactive

namespace Renderer

/-- JS object props never repeat a key, so lookup returns each binding:
the well-formedness condition on modeled prop lists. -/
def propsLookupOK (props : List (String × PropVal)) : Prop :=
  ∀ p ∈ props, props.lookup p.1 = some p.2

instance (props : List (String × PropVal)) : Decidable (propsLookupOK props) :=
  inferInstanceAs (Decidable (∀ p ∈ props, props.lookup p.1 = some p.2))

mutual

/-- Trees for which self-reconciliation is well defined: element and
text vnodes only (component vnodes re-render, fragment vnodes carry no
element and crash in updateChildren), with materialized elements,
well-formed props and safe children. -/
def selfPatchSafeB : VN → Bool
  | .prim _ => false
  | .node ty props ch el _ =>
    if ty == "TEXT" then true
    else if ty == "COMPONENT" || ty == "FRAGMENT" then false
    else decide (propsLookupOK props) && el.isSome && childListSafeB ch

def childListSafeB : List VN → Bool
  | [] => true
  | c :: rest =>
    (match c with
     | .node _ _ _ _ _ => selfPatchSafeB c
     | .prim _ => true) && childListSafeB rest

end

/-- Safety of a single child slot: raw children are always safe, vnode
children must be self-patch safe. -/
def childSafeB (c : VN) : Bool :=
  match c with
  | .node _ _ _ _ _ => selfPatchSafeB c
  | .prim _ => true

mutual

/-- Fuel sufficient to self-patch a tree (three steps per node plus one
per child slot). -/
def vnFuel : VN → Nat
  | .prim _ => 1
  | .node _ _ ch _ _ => 3 + listFuel ch

def listFuel : List VN → Nat
  | [] => 0
  | c :: rest => 1 + vnFuel c + listFuel rest

end

end Renderer

/-!
Theorems settling the claims. Each claim theorem carries its claim id.
-/

/-- C3: the numeric for statement compiles to a canonical three-part
loop whose bound test is the <= comparison and whose step defaults to
the literal 1 when absent and is otherwise emitted exactly as compiled
from the source node; the compiled loop for the statement
for i = 1, 5 do sum = sum + i end leaves sum equal to 15, and the
compiled loop for i = 10, 1, -2 with a probe-incrementing body runs the
body zero times, its explicit negative step emitted as given. -/
theorem c3_numeric_for_semantics :
    (∀ node : ForCompile.NumericForStatement,
      (ForCompile.compileForStatement node).testOp = "<=" ∧
      (node.step = none →
        (ForCompile.compileForStatement node).step = ForCompile.JExpr.num 1) ∧
      (∀ e, node.step = some e →
        (ForCompile.compileForStatement node).step
          = ForCompile.compileExpression e)) ∧
    (ForCompile.runJsFor 100
        (ForCompile.compileForStatement ForCompile.sumLoopNode)
        [("sum", 0)]).map (fun env => ForCompile.lookupVar env "sum")
      = some 15 ∧
    (ForCompile.runJsFor 100
        (ForCompile.compileForStatement ForCompile.descLoopNode)
        [("probe", 0)]).map (fun env => ForCompile.lookupVar env "probe")
      = some 0 ∧
    (ForCompile.compileForStatement ForCompile.descLoopNode).step
      = ForCompile.JExpr.unary "-" (ForCompile.JExpr.num 2) := by
  refine ⟨fun node => ⟨rfl, fun h => ?_, fun e h => ?_⟩, rfl, rfl, rfl⟩
  · simp [ForCompile.compileForStatement, h]
  · simp [ForCompile.compileForStatement, h]

/-- C3 witness: the general clauses of the theorem applied to the
concrete loop nodes, with their hypotheses discharged there. -/
theorem c3_numeric_for_semantics_witness :
    (ForCompile.compileForStatement ForCompile.sumLoopNode).step
      = ForCompile.JExpr.num 1 ∧
    (ForCompile.compileForStatement ForCompile.descLoopNode).step
      = ForCompile.compileExpression
          (ForCompile.CExpr.unary "-" (ForCompile.CExpr.num 2)) :=
  ⟨(c3_numeric_for_semantics.1 ForCompile.sumLoopNode).2.1 rfl,
   ((c3_numeric_for_semantics.1 ForCompile.descLoopNode).2.2
     (ForCompile.CExpr.unary "-" (ForCompile.CExpr.num 2)) rfl)⟩

namespace AdvParse

/-- The token stream of the source text local x = ; local y = 2 under
the AdvancedLexer (local is a keyword, the semicolon is its own token,
2 is a number literal, and an EOF token terminates the stream). -/
def c4Tokens : List Tok :=
  [.LOCAL, .IDENT "x", .ASSIGN, .SEMICOLON,
   .LOCAL, .IDENT "y", .ASSIGN, .NUMBER 2, .EOF]

/-- The token stream of the expression -2^2. -/
def c6Tokens : List Tok :=
  [.MINUS, .NUMBER 2, .POWER "^", .NUMBER 2, .EOF]

/-- The token stream of the expression 2^3^2. -/
def c6AssocTokens : List Tok :=
  [.NUMBER 2, .POWER "^", .NUMBER 3, .POWER "^", .NUMBER 2, .EOF]

end AdvParse

/-- C4: parsing local x = ; local y = 2 throws inside the first
statement (the direct Unexpected-token throw of primaryExpression, not
a consume failure, so the error is recorded exactly once by the catch
in parse), synchronizes past the semicolon, and parses the second
declaration: the recovered body holds exactly the declaration of y with
initializer 2, and the errors list holds exactly one entry. -/
theorem c4_parse_error_recovery :
    (AdvParse.parseProgram 100 (AdvParse.initState AdvParse.c4Tokens)).body
      = [AdvParse.Stmt.varDecl "let"
          [("y", some (AdvParse.Expr.lit (AdvParse.LitVal.num 2)))]] ∧
    (AdvParse.parseProgram 100
        (AdvParse.initState AdvParse.c4Tokens)).errors.length = 1 :=
  ⟨rfl, rfl⟩

/-- C6 counterexample: the expression -2^2 parses with the unary minus
consumed first by unaryExpression (which the exponentiation level calls
for its left operand), producing the power of the negated literal, and
that tree is not the negation of the power: there is no special case in
the parser. -/
theorem c6_counterexample :
    (AdvParse.expressionP 100 (AdvParse.initState AdvParse.c6Tokens)).2
      = Except.ok (AdvParse.Expr.binary "**"
          (AdvParse.Expr.unary "-" (AdvParse.Expr.lit (AdvParse.LitVal.num 2)))
          (AdvParse.Expr.lit (AdvParse.LitVal.num 2))) ∧
    AdvParse.Expr.binary "**"
        (AdvParse.Expr.unary "-" (AdvParse.Expr.lit (AdvParse.LitVal.num 2)))
        (AdvParse.Expr.lit (AdvParse.LitVal.num 2))
      ≠ AdvParse.Expr.unary "-"
          (AdvParse.Expr.binary "**" (AdvParse.Expr.lit (AdvParse.LitVal.num 2))
            (AdvParse.Expr.lit (AdvParse.LitVal.num 2))) :=
  ⟨rfl, fun h => AdvParse.Expr.noConfusion h⟩

/-- C6 as amended: the power operator is right-associative (2^3^2
parses as 2 ** (3 ** 2)), and -2^2 parses as (-2) ** 2 because
unaryExpression binds tighter than the power tail; no special case
exists. -/
theorem c6_exponentiation_amended :
    (AdvParse.expressionP 100 (AdvParse.initState AdvParse.c6AssocTokens)).2
      = Except.ok (AdvParse.Expr.binary "**"
          (AdvParse.Expr.lit (AdvParse.LitVal.num 2))
          (AdvParse.Expr.binary "**" (AdvParse.Expr.lit (AdvParse.LitVal.num 3))
            (AdvParse.Expr.lit (AdvParse.LitVal.num 2)))) ∧
    (AdvParse.expressionP 100 (AdvParse.initState AdvParse.c6Tokens)).2
      = Except.ok (AdvParse.Expr.binary "**"
          (AdvParse.Expr.unary "-" (AdvParse.Expr.lit (AdvParse.LitVal.num 2)))
          (AdvParse.Expr.lit (AdvParse.LitVal.num 2))) :=
  ⟨rfl, rfl⟩

/-- C7: the compiled text of local s = "if (false) \x7bx\x7d" binds s
to that string, but the optimizer under its default options deletes the
dead-code pattern inside the string literal, so the optimized program
binds s to the empty string: the pass changes observable behavior.
Disabling every pass returns the code unchanged. -/
theorem c7_optimize_changes_behavior :
    Optim.letStringBinding Optim.failingDecl
      = some ("s", "if (false) \x7bx\x7d") ∧
    Optim.letStringBinding (Optim.optimize Optim.defaultOptim Optim.failingDecl)
      = some ("s", "") ∧
    Optim.letStringBinding (Optim.optimize Optim.defaultOptim Optim.failingDecl)
      ≠ Optim.letStringBinding Optim.failingDecl ∧
    (∀ code, Optim.optimize Optim.allOff code = code) := by
  refine ⟨rfl, rfl, by decide, fun code => rfl⟩

/-- C10: every read of the value property of the wrapper objects
returned by computed() and ref() throws a TypeError: the getters call
this.track with the plain wrapper as receiver, and the wrapper object
literals define only the value accessor, so the track lookup yields
undefined and the call throws. For computed the recomputation (when
dirty) still happens first; the error is raised after it. -/
theorem c10_wrapper_value_reads_throw :
    (∀ (w : Reactive.RWorld) (cell : Reactive.ComputedCell),
      (Reactive.computedGetValue w cell).1
        = Except.error (Reactive.JsErr.typeError "this.track is not a function")) ∧
    (∀ v : Int,
      Reactive.refGetValue v
        = Except.error (Reactive.JsErr.typeError "this.track is not a function")) := by
  constructor
  · intro w cell
    simp [Reactive.computedGetValue, Reactive.wrapperOwnKeys]
  · intro v
    simp [Reactive.refGetValue, Reactive.wrapperOwnKeys]

/-- C1 counterexample: reconciling the keyed children
div(key 1), span(key 2), p(key 3) against their permutation
p(key 3), div(key 1), span(key 2) issues three createElement calls and
three replaceChild splices and zero reordering moves: the walk is
purely positional, so each position sees a different tag and is
replaced, destroying and recreating all three nodes instead of reusing
their handles by key. -/
theorem c1_counterexample :
    (Renderer.updateChildren 100 (some 1)
        [Renderer.kOldA, Renderer.kOldB, Renderer.kOldC]
        [Renderer.kNewC, Renderer.kNewA, Renderer.kNewB]
        Renderer.kState).map (fun st => st.trace)
      = Except.ok
          [.createElement "p" 5, .replaceChild 1 5 2,
           .createElement "div" 6, .replaceChild 1 6 3,
           .createElement "span" 7, .replaceChild 1 7 4] :=
  rfl

/-- C1 as amended: updateChildren builds the key lookups for both child
lists (their content is exactly key to vnode and index), but never
consults them; matching is purely positional. For the permuted keyed
list with identical tags, the engine keeps every handle at its old
position and rewrites text content in place, issuing no create, destroy
or move operations; with position-wise different tags it creates and
splices replacements (see the counterexample). -/
theorem c1_keyed_reconciliation_amended :
    Renderer.buildKeyMap
        [Renderer.kOldA, Renderer.kOldB, Renderer.kOldC]
      = [(.str "1", Renderer.kOldA, 0), (.str "2", Renderer.kOldB, 1),
         (.str "3", Renderer.kOldC, 2)] ∧
    Renderer.buildKeyMap
        [Renderer.kNewC, Renderer.kNewA, Renderer.kNewB]
      = [(.str "3", Renderer.kNewC, 0), (.str "1", Renderer.kNewA, 1),
         (.str "2", Renderer.kNewB, 2)] ∧
    (Renderer.updateChildren 100 (some 1)
        [Renderer.liOldA, Renderer.liOldB, Renderer.liOldC]
        [Renderer.liNewC, Renderer.liNewA, Renderer.liNewB]
        Renderer.liState).map (fun st => st.trace)
      = Except.ok
          [.setTextContent 8 "C", .setTextContent 9 "A",
           .setTextContent 10 "B"] :=
  ⟨rfl, rfl, rfl⟩

/-- C5 counterexample: a mounted component vnode patched against the
same vnode object re-invokes the instance render; the fresh rendered
tree carries a fresh click-handler closure identity, so the strict
comparison in updateElement differs and the engine removes and re-adds
the listener: two render-target mutations from reconciling a tree
against itself. -/
theorem c5_counterexample :
    (Renderer.patch 100 (some 0) (some Renderer.cVNode) (some Renderer.cVNode)
        Renderer.cState).map (fun p => p.2.trace)
      = Except.ok [.removeListener 1 "click", .addListener 1 "click"] ∧
    [Renderer.DomOp.removeListener 1 "click",
     Renderer.DomOp.addListener 1 "click"].all Renderer.DomOp.isMutation
      = true :=
  ⟨rfl, rfl⟩

/-- C2 counterexample: an effect reading only property a of a reactive
object runs once at registration; two assignments of distinct values to
a within the same synchronous turn re-run it synchronously twice (three
logged runs in total), while the scheduler queue stays empty and no
flush is even pending: re-runs are per-assignment at trigger time, not
once per flush as the claim states (which would give two runs in
total). -/
theorem c2_counterexample :
    Reactive.c2AfterTwoSets.sys.log
      = [.ran 10, .ran 10, .ran 10] ∧
    Reactive.c2AfterTwoSets.sys.queue = [] ∧
    Reactive.c2AfterTwoSets.sys.isFlushPending = false ∧
    Reactive.runsOf Reactive.c2AfterTwoSets.sys.log 10 = 3 ∧
    Reactive.runsOf Reactive.c2AfterTwoSets.sys.log 10 ≠ 2 := by
  refine ⟨rfl, rfl, rfl, rfl, by decide⟩

/-- C8 counterexample: triggering (target, a) with subscribers
computed-runner 20, plain 30 and the currently-running 40 invokes the
computed scheduler before the plain effect and marks the computed cell
dirty, but when the re-run plain effect then reads the computed value,
the read throws a TypeError instead of yielding the freshly computed
result 7: the claimed observation of the fresh value is impossible in
this source version. -/
theorem c8_counterexample :
    Reactive.c8Post.sys.log = [.schedRan 20, .ran 30] ∧
    Reactive.lookupCell Reactive.c8Post 0 = some Reactive.c8PostCell ∧
    (Reactive.computedGetValue Reactive.c8Post Reactive.c8PostCell).1
      = Except.error (Reactive.JsErr.typeError "this.track is not a function") ∧
    (Reactive.computedGetValue Reactive.c8Post Reactive.c8PostCell).1
      ≠ Except.ok 7 := by
  have h3 : (Reactive.computedGetValue Reactive.c8Post Reactive.c8PostCell).1
      = Except.error (Reactive.JsErr.typeError "this.track is not a function") :=
    rfl
  refine ⟨rfl, rfl, h3, ?_⟩
  rw [h3]
  intro h
  exact Except.noConfusion h

/-- C9 counterexample: discarding a mounted component through the
different-node-kind replacement path materializes the replacement,
splices it in with replaceChild, and only then runs the component
unmount processing: replaceChild sits at index 1 of the trace and
componentWillUnmount at index 2, so detachment precedes unmount on this
path, contradicting the claim that unmount precedes detachment on every
discard path. -/
theorem c9_counterexample :
    (Renderer.patch 100 (some 0) (some Renderer.uVNode)
        (some Renderer.uReplacement) Renderer.uState).map (fun p => p.2.trace)
      = Except.ok
          [.createElement "div" 5, .replaceChild 0 5 1, .willUnmount 50] ∧
    [Renderer.DomOp.createElement "div" 5, .replaceChild 0 5 1,
     .willUnmount 50].findIdx (fun op => op = .replaceChild 0 5 1) = 1 ∧
    [Renderer.DomOp.createElement "div" 5, .replaceChild 0 5 1,
     .willUnmount 50].findIdx (fun op => op = .willUnmount 50) = 2 := by
  refine ⟨rfl, by decide, by decide⟩

namespace Renderer

theorem setDomChildren_trace (st : RState) (id : Nat) (cs : List Nat) :
    (setDomChildren st id cs).trace = st.trace := by
  unfold setDomChildren
  split <;> rfl

theorem setDomChildren_mounted (st : RState) (id : Nat) (cs : List Nat) :
    (setDomChildren st id cs).mounted = st.mounted := by
  unfold setDomChildren
  split <;> rfl

theorem domRemove_trace (st : RState) (p c : Nat) :
    (domRemove st p c).trace = st.trace ++ [DomOp.removeChild p c] := by
  simp [domRemove, emit, setDomChildren_trace]

/-- A state extension that only appends lifecycle processing: the target
child lists are untouched and every appended trace operation is a
non-mutation (hook or unmount notification). -/
def LifecycleOnlyExt (st st' : RState) : Prop :=
  st'.domChildren = st.domChildren ∧
  ∃ d, st'.trace = st.trace ++ d ∧ ∀ op ∈ d, op.isMutation = false

theorem lifecycleOnlyExt_refl (st : RState) : LifecycleOnlyExt st st :=
  ⟨rfl, [], by simp, by simp⟩

theorem lifecycleOnlyExt_trans {st1 st2 st3 : RState}
    (h12 : LifecycleOnlyExt st1 st2) (h23 : LifecycleOnlyExt st2 st3) :
    LifecycleOnlyExt st1 st3 := by
  obtain ⟨hd12, d12, ht12, hm12⟩ := h12
  obtain ⟨hd23, d23, ht23, hm23⟩ := h23
  refine ⟨hd23.trans hd12, d12 ++ d23, ?_, ?_⟩
  · rw [ht23, ht12, List.append_assoc]
  · intro op hop
    rcases List.mem_append.mp hop with h | h
    · exact hm12 op h
    · exact hm23 op h

theorem executeHooks_lifecycleExt (st : RState) (ty : String) (i : Nat) :
    LifecycleOnlyExt st (executeHooks st ty i) := by
  unfold executeHooks
  by_cases h : st.hooksRegistered.contains ty
  · simp only [h, if_true]
    exact ⟨rfl, [.rendererHook ty i], rfl, by simp [DomOp.isMutation]⟩
  · simp only [h, if_false]
    exact lifecycleOnlyExt_refl st

theorem emit_willUnmount_lifecycleExt (st : RState) (i : Nat) :
    LifecycleOnlyExt st (emit st (.willUnmount i)) :=
  ⟨rfl, [.willUnmount i], rfl, by simp [DomOp.isMutation]⟩

theorem mountedDelete_lifecycleExt (st : RState) (vid : Nat) :
    LifecycleOnlyExt st (mountedDelete st vid) :=
  ⟨rfl, [], by simp [mountedDelete], by simp⟩

/-- The component-cleanup step at the head of unmount only performs
lifecycle processing. -/
theorem unmountStep_lifecycleExt (vid : Nat) (st : RState) :
    LifecycleOnlyExt st
      (match mountedGet st vid with
       | some inst =>
         let s := executeHooks st "beforeUnmount" inst.instId
         let s2 := if inst.hasWillUnmount = true then
             emit s (DomOp.willUnmount inst.instId)
           else s
         mountedDelete s2 vid
       | none => st) := by
  cases hm : mountedGet st vid with
  | none => exact lifecycleOnlyExt_refl st
  | some inst =>
    show LifecycleOnlyExt st
      (mountedDelete
        (if inst.hasWillUnmount = true then
          emit (executeHooks st "beforeUnmount" inst.instId)
            (DomOp.willUnmount inst.instId)
        else executeHooks st "beforeUnmount" inst.instId) vid)
    by_cases hw : inst.hasWillUnmount
    · simp only [hw, if_true]
      exact lifecycleOnlyExt_trans
        (lifecycleOnlyExt_trans
          (executeHooks_lifecycleExt st "beforeUnmount" inst.instId)
          (emit_willUnmount_lifecycleExt _ inst.instId))
        (mountedDelete_lifecycleExt _ vid)
    · simp only [hw, if_false]
      exact lifecycleOnlyExt_trans
        (executeHooks_lifecycleExt st "beforeUnmount" inst.instId)
        (mountedDelete_lifecycleExt _ vid)

mutual

/-- unmount only performs lifecycle processing: it never touches the
target child lists and never emits a mutating operation. -/
theorem unmount_lifecycleExt : ∀ (v : VN) (st : RState),
    LifecycleOnlyExt st (unmount v st)
  | .prim _, st => lifecycleOnlyExt_refl st
  | .node ty props ch el vid, st => by
    show LifecycleOnlyExt st
      (unmountList ch
        (if (VN.node ty props ch el vid).isComponent = true then
          match mountedGet st vid with
          | some inst =>
            let s := executeHooks st "beforeUnmount" inst.instId
            let s2 := if inst.hasWillUnmount = true then
                emit s (DomOp.willUnmount inst.instId)
              else s
            mountedDelete s2 vid
          | none => st
        else st))
    refine lifecycleOnlyExt_trans ?_ (unmountList_lifecycleExt ch _)
    by_cases hc : (VN.node ty props ch el vid).isComponent
    · simp only [hc, if_true]
      exact unmountStep_lifecycleExt vid st
    · simp only [hc, if_false]
      exact lifecycleOnlyExt_refl st

theorem unmountList_lifecycleExt : ∀ (l : List VN) (st : RState),
    LifecycleOnlyExt st (unmountList l st)
  | [], st => lifecycleOnlyExt_refl st
  | c :: rest, st => by
    cases c with
    | node t p cs e i =>
      show LifecycleOnlyExt st
        (unmountList rest (unmount (VN.node t p cs e i) st))
      exact lifecycleOnlyExt_trans
        (unmount_lifecycleExt (.node t p cs e i) st)
        (unmountList_lifecycleExt rest _)
    | prim s =>
      show LifecycleOnlyExt st (unmountList rest st)
      exact unmountList_lifecycleExt rest st

end

end Renderer

/-- C9 as amended: on the new-tree-absent removal path the component
unmount processing (hooks and componentWillUnmount) all happens before
the node is detached: the removal path always succeeds, appends first a
run of non-mutating lifecycle operations and then at most one final
removeChild. (In the different-node-kind replacement path the splice
precedes unmount processing; see the counterexample.) -/
theorem c9_unmount_before_detach_amended :
    ∀ (f : Nat) (c : Option Nat) (o : Renderer.VN) (st : Renderer.RState),
    ∃ (stf : Renderer.RState) (preOps detachOps : List Renderer.DomOp),
      Renderer.patch (f + 1) c (some o) none st
        = Except.ok (.nullOut, stf) ∧
      stf.trace = st.trace ++ preOps ++ detachOps ∧
      (∀ op ∈ preOps, op.isMutation = false) ∧
      (detachOps = [] ∨ ∃ p e, detachOps = [Renderer.DomOp.removeChild p e]) := by
  intro f c o st
  obtain ⟨hdom, d, htr, hops⟩ := Renderer.unmount_lifecycleExt o st
  cases ho : o.element with
  | none =>
    refine ⟨Renderer.unmount o st, d, [], ?_, by simp [htr], hops, Or.inl rfl⟩
    simp only [Renderer.patch]
    rw [ho]
  | some e =>
    cases hp : Renderer.parentOf (Renderer.unmount o st) e with
    | none =>
      refine ⟨Renderer.unmount o st, d, [], ?_, by simp [htr], hops, Or.inl rfl⟩
      simp only [Renderer.patch]
      rw [ho]
      show (match Renderer.parentOf (Renderer.unmount o st) e with
        | some p =>
          Except.ok (Renderer.PatchOut.nullOut,
            Renderer.domRemove (Renderer.unmount o st) p e)
        | none =>
          Except.ok (Renderer.PatchOut.nullOut, Renderer.unmount o st)) = _
      rw [hp]
    | some p =>
      refine ⟨Renderer.domRemove (Renderer.unmount o st) p e, d,
        [Renderer.DomOp.removeChild p e], ?_, ?_, hops, Or.inr ⟨p, e, rfl⟩⟩
      · simp only [Renderer.patch]
        rw [ho]
        show (match Renderer.parentOf (Renderer.unmount o st) e with
          | some p =>
            Except.ok (Renderer.PatchOut.nullOut,
              Renderer.domRemove (Renderer.unmount o st) p e)
          | none =>
            Except.ok (Renderer.PatchOut.nullOut, Renderer.unmount o st)) = _
        rw [hp]
      · rw [Renderer.domRemove_trace, htr, List.append_assoc]

/-- C9 witness: the amended removal-path theorem applied to the mounted
component scenario. -/
theorem c9_unmount_before_detach_witness :
    ∃ (stf : Renderer.RState) (preOps detachOps : List Renderer.DomOp),
      Renderer.patch 100 (some 0) (some Renderer.uVNode) none Renderer.uState
        = Except.ok (.nullOut, stf) ∧
      stf.trace = Renderer.uState.trace ++ preOps ++ detachOps ∧
      (∀ op ∈ preOps, op.isMutation = false) ∧
      (detachOps = [] ∨ ∃ p e, detachOps = [Renderer.DomOp.removeChild p e]) :=
  c9_unmount_before_detach_amended 99 (some 0) Renderer.uVNode Renderer.uState

namespace Renderer

theorem lookup_isSome_of_mem {P : List (String × PropVal)} {k : String}
    {v : PropVal} (h : (k, v) ∈ P) : (P.lookup k).isSome := by
  induction P with
  | nil => cases h
  | cons p rest ihp =>
    obtain ⟨k', v'⟩ := p
    by_cases he : k = k'
    · simp [List.lookup, he]
    · have h1 : (k, v) ∈ rest := by
        rcases List.mem_cons.mp h with h1 | h1
        · cases h1
          exact absurd rfl he
        · exact h1
      have hb : (k == k') = false := beq_eq_false_iff_ne.mpr he
      simpa [List.lookup, hb] using ihp h1

theorem removeOldProps_self (el : Option Nat)
    (P : List (String × PropVal)) :
    ∀ (l : List (String × PropVal)) (st : RState),
      (∀ p ∈ l, (P.lookup p.1).isSome) →
      removeOldProps el l P st = .ok st := by
  intro l
  induction l with
  | nil => intro st _; rfl
  | cons p rest ihl =>
    intro st hl
    have hp : (P.lookup p.1).isSome := hl p (List.mem_cons_self p rest)
    have hn : (P.lookup p.1).isNone = false := by
      cases hq : P.lookup p.1 with
      | none => rw [hq] at hp; cases hp
      | some _ => rfl
    obtain ⟨key, v⟩ := p
    simp only [removeOldProps, hn, Bool.false_eq_true, if_false]
    exact ihl st (fun q hq => hl q (List.mem_cons_of_mem (key, v) hq))

theorem setNewProps_self (el : Option Nat) (P : List (String × PropVal)) :
    ∀ (l : List (String × PropVal)) (st : RState),
      (∀ p ∈ l, P.lookup p.1 = some p.2) →
      setNewProps el P P l st = .ok st := by
  intro l
  induction l with
  | nil => intro st _; rfl
  | cons p rest ihl =>
    intro st hl
    obtain ⟨key, v⟩ := p
    have hp : P.lookup key = some v := hl (key, v) (List.mem_cons_self _ rest)
    have hrest : setNewProps el P P rest st = .ok st :=
      ihl st (fun q hq => hl q (List.mem_cons_of_mem (key, v) hq))
    by_cases hs : (key == "key" || key == "ref" || key == "componentType") = true
    · simp only [setNewProps, hs, if_true]
      exact hrest
    · have hcond : ¬(P.lookup key ≠ some v) := by simp [hp]
      simp only [setNewProps, hs, Bool.false_eq_true, if_false, hcond,
        ite_false]
      exact hrest

theorem updateElement_self (el : Option Nat)
    (P : List (String × PropVal)) (st : RState)
    (hOK : propsLookupOK P) : updateElement el P P st = .ok st := by
  have h1 : removeOldProps el P P st = .ok st :=
    removeOldProps_self el P P st (fun p hp => by
      obtain ⟨k, v⟩ := p
      exact lookup_isSome_of_mem hp)
  unfold updateElement
  rw [h1]
  exact setNewProps_self el P P st hOK

theorem isDifferentNodeType_self (v : VN) :
    isDifferentNodeType v v = false := by
  simp [isDifferentNodeType]

end Renderer


namespace Renderer

theorem childListSafeB_eq_all (l : List VN) :
    childListSafeB l = l.all childSafeB := by
  induction l with
  | nil => rfl
  | cons c rest ihl => simp [childListSafeB, childSafeB, ihl]

theorem vnFuel_pos (v : VN) : 1 ≤ vnFuel v := by
  cases v with
  | prim s => simp [vnFuel]
  | node ty props ch el vid =>
    simp only [vnFuel]
    omega

/-- The positional walk of updateChildren over the same child list on
both sides succeeds without appending any operation: each position
holds the same child, so every branch is a no-op, with VNode children
handled by the self-patch hypothesis. -/
theorem updateChildrenLoop_self_noop (fTop : Nat)
    (PIH : ∀ g, g < fTop → ∀ (c : Option Nat) (st : RState) (T : VN),
      selfPatchSafeB T = true → vnFuel T ≤ g →
      patch g c (some T) (some T) st = .ok (.vnodeOut T, st)) :
    ∀ (h : Nat), h < fTop →
      ∀ (ch : List VN) (elId : Nat) (cn : List Nat) (i : Nat) (st : RState),
        childListSafeB ch = true →
        listFuel (ch.drop i) < h →
        updateChildrenLoop h elId cn ch ch i ch.length st = .ok st := by
  intro h
  induction h with
  | zero =>
    intro _ ch elId cn i st _ hf
    omega
  | succ h ihh =>
    intro hlt ch elId cn i st hsafe hf
    by_cases hi : ch.length ≤ i
    · simp only [updateChildrenLoop, hi, if_true]
    · have hilt : i < ch.length := by omega
      have hdrop : ch.drop i = ch[i] :: ch.drop (i + 1) :=
        List.drop_eq_getElem_cons hilt
      have hget : ch.get? i = some ch[i] := by
        rw [List.get?_eq_getElem?]
        exact List.getElem?_eq_getElem hilt
      have hfc : 1 + vnFuel ch[i] + listFuel (ch.drop (i + 1)) < h + 1 := by
        rw [hdrop] at hf
        simpa [listFuel] using hf
      have hcsafe : childSafeB ch[i] = true := by
        rw [childListSafeB_eq_all] at hsafe
        exact List.all_eq_true.mp hsafe ch[i] (List.getElem_mem hilt)
      have hpos : 1 ≤ vnFuel ch[i] := vnFuel_pos ch[i]
      have hnext : listFuel (ch.drop (i + 1)) < h := by omega
      have hlt' : h < fTop := by omega
      simp only [updateChildrenLoop, hi, if_false, hget]
      cases hc : ch[i] with
      | prim s =>
        by_cases hs : s = ""
        · subst hs
          simp only [childTruthy]
          simpa using ihh hlt' ch elId cn (i + 1) st hsafe hnext
        · have hne : (s == "") = false := beq_eq_false_iff_ne.mpr hs
          simp only [childTruthy, hne]
          simpa using ihh hlt' ch elId cn (i + 1) st hsafe hnext
      | node t p cs e vi =>
        have hS : selfPatchSafeB (.node t p cs e vi) = true := by
          rw [hc] at hcsafe
          simpa [childSafeB] using hcsafe
        have hfuel : vnFuel (VN.node t p cs e vi) ≤ h := by
          rw [hc] at hfc hpos
          omega
        have hpatch : patch h (some elId) (some (VN.node t p cs e vi))
            (some (VN.node t p cs e vi)) st
            = .ok (.vnodeOut (VN.node t p cs e vi), st) :=
          PIH h hlt' (some elId) st (VN.node t p cs e vi) hS hfuel
        simp only [childTruthy, hpatch]
        simpa using ihh hlt' ch elId cn (i + 1) st hsafe hnext

/-- updateChildren over the same list on both sides is a no-op. -/
theorem updateChildren_self_noop (fTop : Nat)
    (PIH : ∀ g, g < fTop → ∀ (c : Option Nat) (st : RState) (T : VN),
      selfPatchSafeB T = true → vnFuel T ≤ g →
      patch g c (some T) (some T) st = .ok (.vnodeOut T, st)) :
    ∀ (g : Nat), g < fTop →
      ∀ (e : Nat) (ch : List VN) (st : RState),
        childListSafeB ch = true →
        listFuel ch + 1 < g →
        updateChildren g (some e) ch ch st = .ok st := by
  intro g hg e ch st hsafe hfuel
  obtain ⟨g', rfl⟩ : ∃ g', g = g' + 1 := ⟨g - 1, by omega⟩
  simp only [updateChildren, Nat.max_self]
  exact updateChildrenLoop_self_noop fTop PIH g' (by omega) ch e
    (domChildrenOf st e) 0 st hsafe (by simpa using (by omega : listFuel ch < g'))

end Renderer

/-- C5 as amended: reconciling a materialized component- and
fragment-free tree against the same tree object is a complete no-op:
patch succeeds, returns the tree itself, and leaves the renderer state
(including the operation trace, so zero render-target mutations)
untouched. Component vnodes are excluded: they re-render and can
mutate, as the counterexample shows. -/
theorem c5_idempotent_patch_amended :
    ∀ (f : Nat) (c : Option Nat) (st : Renderer.RState) (T : Renderer.VN),
      Renderer.selfPatchSafeB T = true → Renderer.vnFuel T ≤ f →
      Renderer.patch f c (some T) (some T) st
        = Except.ok (.vnodeOut T, st) := by
  intro f
  induction f using Nat.strong_induction_on with
  | _ f ih =>
    intro c st T hS hF
    cases T with
    | prim s => simp [Renderer.selfPatchSafeB] at hS
    | node ty props ch el vid =>
      simp only [Renderer.vnFuel] at hF
      obtain ⟨f', rfl⟩ : ∃ f', f = f' + 1 := ⟨f - 1, by omega⟩
      simp only [Renderer.patch, Renderer.isDifferentNodeType_self,
        Bool.false_eq_true, if_false]
      by_cases hT : (ty == "TEXT") = true
      · have hText : (Renderer.VN.node ty props ch el vid).isText = true := by
          simpa [Renderer.VN.isText, Renderer.VN.ty] using hT
        simp [hText, Renderer.VN.text0]
      · have hText : (Renderer.VN.node ty props ch el vid).isText = false := by
          simpa [Renderer.VN.isText, Renderer.VN.ty] using hT
        have hS' := hS
        simp only [Renderer.selfPatchSafeB, hT, Bool.false_eq_true,
          if_false] at hS'
        by_cases hCF : (ty == "COMPONENT" || ty == "FRAGMENT") = true
        · rw [if_pos hCF] at hS'
          cases hS'
        · rw [if_neg hCF] at hS'
          rw [Bool.and_eq_true, Bool.and_eq_true] at hS'
          obtain ⟨⟨hOKd, hElSome⟩, hChSafe⟩ := hS'
          have hOK : Renderer.propsLookupOK props := of_decide_eq_true hOKd
          obtain ⟨e, rfl⟩ : ∃ e, el = some e := by
            cases el with
            | none => cases hElSome
            | some e => exact ⟨e, rfl⟩
          have hCompTag : (ty == "COMPONENT") = false := by
            cases hq : (ty == "COMPONENT") with
            | false => rfl
            | true => exact absurd (by simp [hq]) hCF
          have hComp :
              (Renderer.VN.node ty props ch (some e) vid).isComponent
                = false := by
            simpa [Renderer.VN.isComponent, Renderer.VN.ty] using hCompTag
          simp only [hText, Bool.false_eq_true, if_false, hComp]
          have hUE : Renderer.updateElement (some e) props props st
              = Except.ok st :=
            Renderer.updateElement_self (some e) props st hOK
          have hUC : Renderer.updateChildren f' (some e) ch ch st
              = Except.ok st :=
            Renderer.updateChildren_self_noop (f' + 1)
              (fun g hg => ih g (by omega)) f' (by omega) e ch st hChSafe
              (by omega)
          simp only [Renderer.VN.element, Renderer.VN.props,
            Renderer.VN.children, hUE, hUC, Renderer.VN.withElement]

/-- C5 witness: the amended self-patch theorem applied to the concrete
materialized element tree, with its safety and fuel hypotheses
discharged by computation. -/
theorem c5_idempotent_patch_witness :
    Renderer.patch 100 (some 0) (some Renderer.selfTree)
        (some Renderer.selfTree) Renderer.selfState
      = Except.ok (.vnodeOut Renderer.selfTree, Renderer.selfState) :=
  c5_idempotent_patch_amended 100 (some 0) Renderer.selfState
    Renderer.selfTree (by decide) (by decide)


namespace Reactive

theorem setDep_log (sys : RSys) (t : Nat) (k : String) (d : List Nat) :
    (setDep sys t k d).log = sys.log := by
  unfold setDep
  split <;> rfl

theorem setDep_effects (sys : RSys) (t : Nat) (k : String) (d : List Nat) :
    (setDep sys t k d).effects = sys.effects := by
  unfold setDep
  split <;> rfl

theorem track_log (sys : RSys) (t : Nat) (k : String) :
    (track sys t k).log = sys.log := by
  unfold track
  cases h : sys.currentEffect with
  | none => rfl
  | some cur =>
    show (if cur ∈ getDep sys t k then sys
          else setDep sys t k (getDep sys t k ++ [cur])).log = sys.log
    by_cases hm : cur ∈ getDep sys t k
    · rw [if_pos hm]
    · rw [if_neg hm]
      exact setDep_log sys t k _

theorem track_effects (sys : RSys) (t : Nat) (k : String) :
    (track sys t k).effects = sys.effects := by
  unfold track
  cases h : sys.currentEffect with
  | none => rfl
  | some cur =>
    show (if cur ∈ getDep sys t k then sys
          else setDep sys t k (getDep sys t k ++ [cur])).effects = sys.effects
    by_cases hm : cur ∈ getDep sys t k
    · rw [if_pos hm]
    · rw [if_neg hm]
      exact setDep_effects sys t k _

theorem foldTrack_log :
    ∀ (reads : List (Nat × String)) (sys : RSys),
      (reads.foldl (fun s tk => track s tk.1 tk.2) sys).log = sys.log := by
  intro reads
  induction reads with
  | nil => intro sys; rfl
  | cons r rest ihr =>
    intro sys
    rw [List.foldl_cons, ihr (track sys r.1 r.2), track_log]

theorem foldTrack_effects :
    ∀ (reads : List (Nat × String)) (sys : RSys),
      (reads.foldl (fun s tk => track s tk.1 tk.2) sys).effects
        = sys.effects := by
  intro reads
  induction reads with
  | nil => intro sys; rfl
  | cons r rest ihr =>
    intro sys
    rw [List.foldl_cons, ihr (track sys r.1 r.2), track_effects]

theorem runEffect_effects (sys : RSys) (id : Nat) :
    (runEffect sys id).effects = sys.effects := by
  unfold runEffect
  cases hle : lookupEffect sys id with
  | none => rfl
  | some ed =>
    show (if ed.active = true then _ else sys).effects = sys.effects
    by_cases ha : ed.active = true
    · rw [if_pos ha]
      dsimp only
      rw [foldTrack_effects]
      rfl
    · rw [if_neg ha]

theorem runEffect_log_exact (sys : RSys) (id : Nat) (ed : EffectDef)
    (hle : lookupEffect sys id = some ed) (ha : ed.active = true) :
    (runEffect sys id).log = sys.log ++ [LogEntry.ran id] := by
  unfold runEffect
  rw [hle]
  show (if ed.active then _ else sys).log = _
  rw [if_pos ha]
  show (ed.reads.foldl (fun s tk => track s tk.1 tk.2)
    { cleanup { sys with log := sys.log ++ [LogEntry.ran id] } id with
      currentEffect := some id
      effectStack :=
        (cleanup { sys with log := sys.log ++ [LogEntry.ran id] } id).effectStack
          ++ [id] }).log = sys.log ++ [LogEntry.ran id]
  rw [foldTrack_log]
  rfl

theorem runEffect_log_cases (sys : RSys) (id : Nat) :
    ∃ d, (runEffect sys id).log = sys.log ++ d ∧
      ∀ x ∈ d, entryId x = id := by
  cases hle : lookupEffect sys id with
  | none =>
    refine ⟨[], ?_, ?_⟩
    · rw [List.append_nil]
      unfold runEffect
      rw [hle]
    · intro x hx
      cases hx
  | some ed =>
    by_cases ha : ed.active = true
    · refine ⟨[LogEntry.ran id], runEffect_log_exact sys id ed hle ha, ?_⟩
      intro x hx
      have hx' := List.mem_singleton.mp hx
      rw [hx']
      rfl
    · refine ⟨[], ?_, ?_⟩
      · rw [List.append_nil]
        unfold runEffect
        rw [hle]
        show (if ed.active = true then _ else sys).log = sys.log
        rw [if_neg ha]
      · intro x hx
        cases hx

theorem runsOf_append (l d : List LogEntry) (e : Nat) :
    runsOf (l ++ d) e = runsOf l e + runsOf d e := by
  simp [runsOf, List.filter_append]

theorem runsOf_zero_of_ne (d : List LogEntry) (e : Nat)
    (h : ∀ x ∈ d, entryId x ≠ e) : runsOf d e = 0 := by
  simp only [runsOf, List.length_eq_zero]
  rw [List.filter_eq_nil_iff]
  intro x hx
  simp only [decide_eq_true_eq]
  exact h x hx

theorem mem_dedupAcc :
    ∀ (l acc : List Nat) (x : Nat), x ∈ dedupAcc l acc →
      x ∈ acc ∨ x ∈ l := by
  intro l
  induction l with
  | nil =>
    intro acc x hx
    exact Or.inl hx
  | cons y rest ihl =>
    intro acc x hx
    simp only [dedupAcc] at hx
    by_cases hc : acc.contains y = true
    · rw [if_pos hc] at hx
      rcases ihl acc x hx with h | h
      · exact Or.inl h
      · exact Or.inr (List.mem_cons_of_mem y h)
    · rw [if_neg hc] at hx
      rcases ihl (acc ++ [y]) x hx with h | h
      · rcases List.mem_append.mp h with h' | h'
        · exact Or.inl h'
        · rw [List.mem_singleton.mp h']
          exact Or.inr (List.mem_cons_self y rest)
      · exact Or.inr (List.mem_cons_of_mem y h)

theorem dedupAcc_eq_append :
    ∀ (l acc : List Nat), l.Nodup → (∀ x ∈ l, x ∉ acc) →
      dedupAcc l acc = acc ++ l := by
  intro l
  induction l with
  | nil =>
    intro acc _ _
    simp [dedupAcc]
  | cons y rest ihl =>
    intro acc hnd hdisj
    have hy : y ∉ acc := hdisj y (List.mem_cons_self y rest)
    have hc : acc.contains y = false := by
      simp [List.contains, List.elem_eq_mem, hy]
    simp only [dedupAcc, hc, Bool.false_eq_true, if_false]
    have hnd' : rest.Nodup := (List.nodup_cons.mp hnd).2
    have hynotin : y ∉ rest := (List.nodup_cons.mp hnd).1
    rw [ihl (acc ++ [y]) hnd' ?_]
    · simp
    · intro x hx hmem
      rcases List.mem_append.mp hmem with h | h
      · exact hdisj x (List.mem_cons_of_mem y hx) h
      · exact hynotin (List.mem_singleton.mp h ▸ hx)

theorem deps_lookup_of_mem_getDep (sys : RSys) (t : Nat) (k : String)
    (e : Nat) (he : e ∈ getDep sys t k) :
    (sys.deps.lookup t).isNone = false := by
  unfold getDep at he
  cases h : sys.deps.lookup t with
  | none =>
    rw [h] at he
    simp at he
  | some m => rfl

theorem trigger_succ_eq (f : Nat) (w : RWorld) (ty : String) (t : Nat)
    (k : String) (v : Int)
    (hn : (w.sys.deps.lookup t).isNone = false) :
    trigger (f + 1) w ty t k v =
      runQueue f
        (runQueue f w (dedupAcc
          ((getDep w.sys t k ++ triggerExtra w.sys ty t k v).filter
            (fun id => !(some id == w.sys.currentEffect)
              && isComputedId w.sys id)) []))
        (dedupAcc
          ((getDep w.sys t k ++ triggerExtra w.sys ty t k v).filter
            (fun id => !(some id == w.sys.currentEffect)
              && !(isComputedId w.sys id))) []) := by
  simp only [trigger]
  rw [if_neg (by rw [hn]; exact Bool.false_ne_true)]
  rfl

theorem runOne_plain_eq (f : Nat) (w : RWorld) (id : Nat) (ed : EffectDef)
    (hf : 1 ≤ f)
    (hle : lookupEffect w.sys id = some ed)
    (hsched : ed.sched = SchedKind.noSched) :
    runOne f w id = { w with sys := runEffect w.sys id } := by
  cases f with
  | zero => exact absurd hf (by omega)
  | succ f' =>
    simp only [runOne]
    rw [hle]
    show (match ed.sched with
          | SchedKind.noSched => { w with sys := runEffect w.sys id }
          | SchedKind.computedSched cid => _) = _
    rw [hsched]

theorem runOne_sched_eq (f : Nat) (w : RWorld) (id : Nat) (ed : EffectDef)
    (cid : Nat) (cell : ComputedCell) (hf : 1 ≤ f)
    (hle : lookupEffect w.sys id = some ed)
    (hsched : ed.sched = SchedKind.computedSched cid)
    (hcell : lookupCell w cid = some cell)
    (hdirty : cell.dirty = true) :
    runOne f w id =
      { w with sys :=
          { w.sys with log := w.sys.log ++ [LogEntry.schedRan id] } } := by
  cases f with
  | zero => exact absurd hf (by omega)
  | succ f' =>
    simp only [runOne]
    rw [hle]
    show (match ed.sched with
          | SchedKind.noSched => { w with sys := runEffect w.sys id }
          | SchedKind.computedSched cid => _) = _
    rw [hsched]
    have hcell' : lookupCell
        { w with sys :=
            { w.sys with log := w.sys.log ++ [LogEntry.schedRan id] } } cid
        = some cell := hcell
    show (match lookupCell
        { w with sys :=
            { w.sys with log := w.sys.log ++ [LogEntry.schedRan id] } } cid with
      | none => _
      | some cell => _) = _
    rw [hcell']
    show (if cell.dirty = true then _ else _) = _
    rw [if_pos hdirty]

theorem runOne_shape (f : Nat) (w : RWorld) (id : Nat) (hp : allPlain w) :
    ∃ d, (runOne f w id).sys.log = w.sys.log ++ d ∧
      (∀ x ∈ d, entryId x = id) ∧
      (runOne f w id).sys.effects = w.sys.effects := by
  cases f with
  | zero =>
    refine ⟨[], ?_, ?_, ?_⟩
    · rw [List.append_nil]
      rfl
    · intro x hx
      cases hx
    · rfl
  | succ f' =>
    cases hle : lookupEffect w.sys id with
    | none =>
      have hred : runOne (f' + 1) w id = w := by
        simp only [runOne]
        rw [hle]
      refine ⟨[], ?_, ?_, ?_⟩
      · rw [hred, List.append_nil]
      · intro x hx
        cases hx
      · rw [hred]
    | some ed =>
      have hsched := hp ed (List.mem_of_find?_eq_some hle)
      rw [runOne_plain_eq (f' + 1) w id ed (by omega) hle hsched]
      obtain ⟨d, hd, hall⟩ := runEffect_log_cases w.sys id
      exact ⟨d, hd, hall, runEffect_effects w.sys id⟩

theorem runQueue_shape :
    ∀ (q : List Nat) (f : Nat) (w : RWorld), allPlain w →
      ∃ d, (runQueue f w q).sys.log = w.sys.log ++ d ∧
        (∀ x ∈ d, entryId x ∈ q) ∧
        (runQueue f w q).sys.effects = w.sys.effects := by
  intro q
  induction q with
  | nil =>
    intro f w _
    cases f with
    | zero =>
      refine ⟨[], ?_, ?_, ?_⟩
      · rw [List.append_nil]
        rfl
      · intro x hx
        cases hx
      · rfl
    | succ f' =>
      refine ⟨[], ?_, ?_, ?_⟩
      · rw [List.append_nil]
        rfl
      · intro x hx
        cases hx
      · rfl
  | cons id rest ihq =>
    intro f w hp
    cases f with
    | zero =>
      refine ⟨[], ?_, ?_, ?_⟩
      · rw [List.append_nil]
        rfl
      · intro x hx
        cases hx
      · rfl
    | succ f' =>
      obtain ⟨d1, hd1, hall1, heff1⟩ := runOne_shape f' w id hp
      have hp' : allPlain (runOne f' w id) := by
        intro ed hed
        exact hp ed (heff1 ▸ hed)
      obtain ⟨d2, hd2, hall2, heff2⟩ := ihq f' (runOne f' w id) hp'
      refine ⟨d1 ++ d2, ?_, ?_, ?_⟩
      · show (runQueue f' (runOne f' w id) rest).sys.log = _
        rw [hd2, hd1, List.append_assoc]
      · intro x hx
        rcases List.mem_append.mp hx with h | h
        · rw [hall1 x h]
          exact List.mem_cons_self id rest
        · exact List.mem_cons_of_mem id (hall2 x h)
      · show (runQueue f' (runOne f' w id) rest).sys.effects = _
        rw [heff2, heff1]

theorem runQueue_runs_unchanged (q : List Nat) (f : Nat) (w : RWorld)
    (e : Nat) (hp : allPlain w) (hq : e ∉ q) :
    runsOf (runQueue f w q).sys.log e = runsOf w.sys.log e := by
  obtain ⟨d, hd, hall, _⟩ := runQueue_shape q f w hp
  rw [hd, runsOf_append,
    runsOf_zero_of_ne d e (fun x hx he => hq (he ▸ hall x hx))]
  omega

theorem lookupEffect_congr (sys sys' : RSys)
    (heff : sys'.effects = sys.effects) (id : Nat) :
    lookupEffect sys' id = lookupEffect sys id := by
  unfold lookupEffect
  rw [heff]

theorem runQueue_runs :
    ∀ (q : List Nat) (f : Nat) (w : RWorld) (e : Nat) (ed : EffectDef),
      allPlain w → lookupEffect w.sys e = some ed → ed.active = true →
      q.length + 1 ≤ f →
      runsOf (runQueue f w q).sys.log e
        = runsOf w.sys.log e + q.count e := by
  intro q
  induction q with
  | nil =>
    intro f w e ed _ _ _ hf
    cases f with
    | zero => exact absurd hf (by omega)
    | succ f' => simp [runQueue]
  | cons id rest ih =>
    intro f w e ed hp hle hact hf
    cases f with
    | zero => exact absurd hf (by omega)
    | succ f' =>
      show runsOf (runQueue f' (runOne f' w id) rest).sys.log e = _
      by_cases hid : id = e
      · subst hid
        have hsched := hp ed (List.mem_of_find?_eq_some hle)
        rw [runOne_plain_eq f' w id ed (by simp at hf; omega) hle hsched]
        have heff : ({ w with sys := runEffect w.sys id } : RWorld).sys.effects
            = w.sys.effects := runEffect_effects w.sys id
        have hp' : allPlain { w with sys := runEffect w.sys id } := by
          intro ed0 hed
          exact hp ed0 (heff ▸ hed)
        have hle' : lookupEffect
            ({ w with sys := runEffect w.sys id } : RWorld).sys id = some ed := by
          rw [lookupEffect_congr w.sys _ heff]
          exact hle
        rw [ih f' { w with sys := runEffect w.sys id } id ed hp' hle' hact
          (by simp at hf; omega)]
        have hlog : ({ w with sys := runEffect w.sys id } : RWorld).sys.log
            = w.sys.log ++ [LogEntry.ran id] :=
          runEffect_log_exact w.sys id ed hle hact
        rw [hlog, runsOf_append, List.count_cons_self]
        have h1 : runsOf [LogEntry.ran id] id = 1 := by
          simp [runsOf, entryId]
        rw [h1]
        omega
      · obtain ⟨d1, hd1, hall1, heff1⟩ := runOne_shape f' w id hp
        have hp' : allPlain (runOne f' w id) := by
          intro ed0 hed
          exact hp ed0 (heff1 ▸ hed)
        have hle' : lookupEffect (runOne f' w id).sys e = some ed := by
          rw [lookupEffect_congr w.sys _ heff1]
          exact hle
        rw [ih f' (runOne f' w id) e ed hp' hle' hact (by simp at hf; omega),
          hd1, runsOf_append,
          runsOf_zero_of_ne d1 e (fun x hx he => hid ((hall1 x hx).symm.trans he)),
          List.count_cons_of_ne (fun h => hid h.symm)]
        omega

theorem not_mem_triggerExtra (sys : RSys) (ty : String) (t : Nat)
    (k : String) (v : Int) (e t0 : Nat)
    (hsub : subscribedOnlyAt sys e t0 "a") :
    e ∉ triggerExtra sys ty t k v := by
  unfold triggerExtra
  by_cases h1 : (ty == "set" && sys.arrayTargets.contains t
      && k == "length") = true
  · rw [if_pos h1]
    intro he
    obtain ⟨k', hk', hek'⟩ := List.mem_flatMap.mp he
    have hpred := (List.mem_filter.mp hk').2
    by_cases ht : t = t0 ∧ k' = "a"
    · obtain ⟨-, hk'a⟩ := ht
      subst hk'a
      rw [show (("a" : String) == "length") = false from rfl] at hpred
      rw [show keyGE "a" v = false from rfl] at hpred
      simp at hpred
    · exact hsub t k' ht hek'
  · rw [if_neg h1]
    by_cases h2 : (ty == "add" && sys.arrayTargets.contains t) = true
    · rw [if_pos h2]
      intro he
      exact hsub t "length" (fun hc => absurd hc.2 (by decide)) he
    · rw [if_neg h2]
      exact List.not_mem_nil e

/-- C2: corrected dependency precision. An effect subscribed only to
property a of target t0 is never re-run by a trigger on any other
(target, key) pair, including the array length and index branches; and
a value-changing trigger on (t0, a) re-runs it exactly once per
trigger, synchronously, so n distinct-value sets in one synchronous
turn re-run it n times rather than once per flush. -/
theorem c2_dependency_precision_amended
    (fuel : Nat) (w : RWorld) (ty : String) (t : Nat) (k : String)
    (v : Int) (e t0 : Nat) (ed : EffectDef)
    (hplain : allPlain w)
    (hsub : subscribedOnlyAt w.sys e t0 "a") :
    (¬(t = t0 ∧ k = "a") →
      runsOf (trigger fuel w ty t k v).sys.log e = runsOf w.sys.log e)
    ∧ (lookupEffect w.sys e = some ed → ed.active = true →
       ed.isComputed = false →
       w.sys.currentEffect ≠ some e →
       (getDep w.sys t0 "a").Nodup →
       e ∈ getDep w.sys t0 "a" →
       (getDep w.sys t0 "a").length + 2 ≤ fuel →
       runsOf (trigger fuel w "set" t0 "a" v).sys.log e
         = runsOf w.sys.log e + 1) := by
  constructor
  · intro hne
    cases fuel with
    | zero => rfl
    | succ f =>
      by_cases hn : (w.sys.deps.lookup t).isNone = true
      · have hstop : trigger (f + 1) w ty t k v = w := by
          simp only [trigger]
          rw [if_pos hn]
        rw [hstop]
      · have hn' : (w.sys.deps.lookup t).isNone = false := by
          cases hb : (w.sys.deps.lookup t).isNone
          · rfl
          · exact absurd hb hn
        rw [trigger_succ_eq f w ty t k v hn']
        have hnotall : e ∉ getDep w.sys t k ++ triggerExtra w.sys ty t k v := by
          intro hmem0
          rcases List.mem_append.mp hmem0 with h | h
          · exact hsub t k hne h
          · exact not_mem_triggerExtra w.sys ty t k v e t0 hsub h
        have hnc : e ∉ dedupAcc
            ((getDep w.sys t k ++ triggerExtra w.sys ty t k v).filter
              (fun id => !(some id == w.sys.currentEffect)
                && isComputedId w.sys id)) [] := by
          intro hmem0
          rcases mem_dedupAcc _ _ _ hmem0 with h | h
          · cases h
          · exact hnotall (List.mem_filter.mp h).1
        have hnp : e ∉ dedupAcc
            ((getDep w.sys t k ++ triggerExtra w.sys ty t k v).filter
              (fun id => !(some id == w.sys.currentEffect)
                && !(isComputedId w.sys id))) [] := by
          intro hmem0
          rcases mem_dedupAcc _ _ _ hmem0 with h | h
          · cases h
          · exact hnotall (List.mem_filter.mp h).1
        obtain ⟨d1, hd1, hall1, heff1⟩ := runQueue_shape
          (dedupAcc ((getDep w.sys t k ++ triggerExtra w.sys ty t k v).filter
            (fun id => !(some id == w.sys.currentEffect)
              && isComputedId w.sys id)) []) f w hplain
        have hp1 : allPlain (runQueue f w
            (dedupAcc ((getDep w.sys t k ++ triggerExtra w.sys ty t k v).filter
              (fun id => !(some id == w.sys.currentEffect)
                && isComputedId w.sys id)) [])) := by
          intro ed0 hed
          exact hplain ed0 (heff1 ▸ hed)
        rw [runQueue_runs_unchanged _ f _ e hp1 hnp,
          runQueue_runs_unchanged _ f w e hplain hnc]
  · intro hle hact hcomp hcur hnd hmem hfuel
    cases fuel with
    | zero => exact absurd hfuel (by omega)
    | succ f =>
      have hn' : (w.sys.deps.lookup t0).isNone = false :=
        deps_lookup_of_mem_getDep w.sys t0 "a" e hmem
      rw [trigger_succ_eq f w "set" t0 "a" v hn']
      have hb1 : ¬((("set" : String) == "set"
          && w.sys.arrayTargets.contains t0
          && ("a" : String) == "length") = true) := by
        rw [show (("a" : String) == "length") = false from rfl]
        simp
      have hb2 : ¬((("set" : String) == "add"
          && w.sys.arrayTargets.contains t0) = true) := by
        rw [show (("set" : String) == "add") = false from rfl]
        simp
      have hex : triggerExtra w.sys "set" t0 "a" v = [] := by
        unfold triggerExtra
        rw [if_neg hb1, if_neg hb2]
      rw [hex, List.append_nil]
      have hic : isComputedId w.sys e = false := by
        unfold isComputedId
        rw [hle]
        simp [hcomp]
      have hnotc : e ∉ dedupAcc ((getDep w.sys t0 "a").filter
          (fun id => !(some id == w.sys.currentEffect)
            && isComputedId w.sys id)) [] := by
        intro hmem0
        rcases mem_dedupAcc _ _ _ hmem0 with h | h
        · cases h
        · have hpred := (List.mem_filter.mp h).2
          rw [Bool.and_eq_true] at hpred
          rw [hic] at hpred
          exact absurd hpred.2 Bool.false_ne_true
      have hplq := dedupAcc_eq_append ((getDep w.sys t0 "a").filter
          (fun id => !(some id == w.sys.currentEffect)
            && !(isComputedId w.sys id))) []
          (hnd.filter _) (fun x _ hx => absurd hx (List.not_mem_nil x))
      rw [List.nil_append] at hplq
      rw [hplq]
      obtain ⟨d1, hd1, hall1, heff1⟩ := runQueue_shape
        (dedupAcc ((getDep w.sys t0 "a").filter
          (fun id => !(some id == w.sys.currentEffect)
            && isComputedId w.sys id)) []) f w hplain
      have hp1 : allPlain (runQueue f w
          (dedupAcc ((getDep w.sys t0 "a").filter
            (fun id => !(some id == w.sys.currentEffect)
              && isComputedId w.sys id)) [])) := by
        intro ed0 hed
        exact hplain ed0 (heff1 ▸ hed)
      have hle1 : lookupEffect (runQueue f w
          (dedupAcc ((getDep w.sys t0 "a").filter
            (fun id => !(some id == w.sys.currentEffect)
              && isComputedId w.sys id)) [])).sys e = some ed := by
        rw [lookupEffect_congr w.sys _ heff1]
        exact hle
      have hflen : ((getDep w.sys t0 "a").filter
          (fun id => !(some id == w.sys.currentEffect)
            && !(isComputedId w.sys id))).length + 1 ≤ f := by
        have hlf := List.length_filter_le
          (fun id => !(some id == w.sys.currentEffect)
            && !(isComputedId w.sys id)) (getDep w.sys t0 "a")
        omega
      rw [runQueue_runs _ f _ e ed hp1 hle1 hact hflen,
        runQueue_runs_unchanged _ f w e hplain hnotc]
      have hcount : ((getDep w.sys t0 "a").filter
          (fun id => !(some id == w.sys.currentEffect)
            && !(isComputedId w.sys id))).count e = 1 := by
        apply List.count_eq_one_of_mem (hnd.filter _)
        apply List.mem_filter.mpr
        refine ⟨hmem, ?_⟩
        rw [Bool.and_eq_true]
        constructor
        · rw [Bool.not_eq_true']
          exact beq_eq_false_iff_ne.mpr (fun hh => hcur hh.symm)
        · rw [Bool.not_eq_true']
          exact hic
      rw [hcount]

theorem c2Setup_allPlain : allPlain c2Setup := by
  intro ed hed
  rw [show c2Setup.sys.effects = [c2Effect] from rfl] at hed
  rw [List.mem_singleton.mp hed]
  rfl

theorem c2Setup_subscribedOnly : subscribedOnlyAt c2Setup.sys 10 1 "a" := by
  intro t k hne he
  unfold getDep at he
  rw [show c2Setup.sys.deps = [(1, [("a", [10])])] from rfl] at he
  by_cases ht : t = 1
  · subst ht
    by_cases hk : k = "a"
    · exact hne ⟨rfl, hk⟩
    · simp [List.lookup, show (k == "a") = false
        from beq_eq_false_iff_ne.mpr hk] at he
  · simp [List.lookup, show (t == 1) = false
      from beq_eq_false_iff_ne.mpr ht] at he

/-- Witness: in the registered scenario, a set of the unread property b
leaves the run count of effect 10 unchanged, and a set of the read
property a increments it by exactly one. -/
theorem c2_dependency_precision_witness :
    runsOf (trigger 100 c2Setup "set" 1 "b" 5).sys.log 10
        = runsOf c2Setup.sys.log 10
    ∧ runsOf (trigger 100 c2Setup "set" 1 "a" 5).sys.log 10
        = runsOf c2Setup.sys.log 10 + 1 := by
  have h := c2_dependency_precision_amended 100 c2Setup "set" 1 "b" 5 10 1
    c2Effect c2Setup_allPlain c2Setup_subscribedOnly
  exact ⟨h.1 (fun hc => absurd hc.2 (by decide)),
    h.2 rfl rfl rfl (by decide) (by decide) (by decide) (by decide)⟩

theorem isComputedId_congr (sys sys' : RSys)
    (heff : sys'.effects = sys.effects) (id : Nat) :
    isComputedId sys' id = isComputedId sys id := by
  unfold isComputedId lookupEffect
  rw [heff]

theorem c8SubOK_congr (w w' : RWorld)
    (heff : w'.sys.effects = w.sys.effects)
    (hcells : w'.cells = w.cells) (id : Nat) :
    c8SubOK w' id = c8SubOK w id := by
  unfold c8SubOK lookupEffect lookupCell
  rw [heff, hcells]

theorem runQueue_sched :
    ∀ (q : List Nat) (f : Nat) (w : RWorld),
      (∀ id ∈ q, c8SubOK w id = true) →
      (∀ id ∈ q, isComputedId w.sys id = true) →
      q.length + 1 ≤ f →
      runQueue f w q =
        { w with sys :=
            { w.sys with log := w.sys.log ++ q.map LogEntry.schedRan } } := by
  intro q
  induction q with
  | nil =>
    intro f w _ _ hf
    cases f with
    | zero => exact absurd hf (by omega)
    | succ f' =>
      show w = _
      rw [List.map_nil, List.append_nil]
  | cons id rest ih =>
    intro f w hok hcomp hf
    cases f with
    | zero => exact absurd hf (by omega)
    | succ f' =>
      have hokid := hok id (List.mem_cons_self id rest)
      have hcompid := hcomp id (List.mem_cons_self id rest)
      unfold c8SubOK at hokid
      cases hle : lookupEffect w.sys id with
      | none =>
        rw [hle] at hokid
        exact absurd hokid Bool.false_ne_true
      | some ed =>
        rw [hle] at hokid
        rw [Bool.and_eq_true] at hokid
        obtain ⟨hact, hsk⟩ := hokid
        have hcompid' : ed.isComputed = true := by
          unfold isComputedId at hcompid
          rw [hle] at hcompid
          simpa using hcompid
        cases hs : ed.sched with
        | noSched =>
          rw [hs] at hsk
          rw [hcompid'] at hsk
          simp at hsk
        | computedSched cid =>
          rw [hs] at hsk
          rw [Bool.and_eq_true] at hsk
          obtain ⟨-, hcellk⟩ := hsk
          cases hcell : lookupCell w cid with
          | none =>
            rw [hcell] at hcellk
            exact absurd hcellk Bool.false_ne_true
          | some cell =>
            rw [hcell] at hcellk
            show runQueue f' (runOne f' w id) rest = _
            rw [runOne_sched_eq f' w id ed cid cell (by simp at hf; omega)
              hle hs hcell hcellk]
            have hok' : ∀ id0 ∈ rest, c8SubOK
                { w with sys :=
                    { w.sys with
                      log := w.sys.log ++ [LogEntry.schedRan id] } } id0
                = true := by
              intro id0 h0
              rw [c8SubOK_congr w
                { w with sys := { w.sys with
                  log := w.sys.log ++ [LogEntry.schedRan id] } } rfl rfl id0]
              exact hok id0 (List.mem_cons_of_mem id h0)
            have hcomp' : ∀ id0 ∈ rest, isComputedId
                ({ w with sys :=
                    { w.sys with
                      log := w.sys.log ++ [LogEntry.schedRan id] } } : RWorld).sys
                id0 = true := by
              intro id0 h0
              rw [isComputedId_congr w.sys
                ({ w with sys := { w.sys with
                  log := w.sys.log ++ [LogEntry.schedRan id] } } : RWorld).sys
                rfl id0]
              exact hcomp id0 (List.mem_cons_of_mem id h0)
            rw [ih f' _ hok' hcomp' (by simp at hf; omega)]
            show ({ w with sys := { w.sys with
              log := (w.sys.log ++ [LogEntry.schedRan id])
                ++ rest.map LogEntry.schedRan } } : RWorld) = _
            rw [List.map_cons, List.append_assoc]
            rfl

theorem runQueue_plainRun :
    ∀ (q : List Nat) (f : Nat) (w : RWorld),
      (∀ id ∈ q, c8SubOK w id = true) →
      (∀ id ∈ q, isComputedId w.sys id = false) →
      q.length + 1 ≤ f →
      (runQueue f w q).sys.log = w.sys.log ++ q.map LogEntry.ran
      ∧ (runQueue f w q).sys.effects = w.sys.effects
      ∧ (runQueue f w q).cells = w.cells := by
  intro q
  induction q with
  | nil =>
    intro f w _ _ hf
    cases f with
    | zero => exact absurd hf (by omega)
    | succ f' =>
      refine ⟨?_, rfl, rfl⟩
      rw [List.map_nil, List.append_nil]
      rfl
  | cons id rest ih =>
    intro f w hok hpl hf
    cases f with
    | zero => exact absurd hf (by omega)
    | succ f' =>
      have hokid := hok id (List.mem_cons_self id rest)
      have hplid := hpl id (List.mem_cons_self id rest)
      unfold c8SubOK at hokid
      cases hle : lookupEffect w.sys id with
      | none =>
        rw [hle] at hokid
        exact absurd hokid Bool.false_ne_true
      | some ed =>
        rw [hle] at hokid
        rw [Bool.and_eq_true] at hokid
        obtain ⟨hact, hsk⟩ := hokid
        have hplid' : ed.isComputed = false := by
          unfold isComputedId at hplid
          rw [hle] at hplid
          simpa using hplid
        cases hs : ed.sched with
        | computedSched cid =>
          rw [hs] at hsk
          rw [Bool.and_eq_true] at hsk
          rw [hplid'] at hsk
          exact absurd hsk.1 Bool.false_ne_true
        | noSched =>
          have hstep := runOne_plain_eq f' w id ed (by simp at hf; omega)
            hle hs
          have heff : ({ w with sys := runEffect w.sys id } : RWorld).sys.effects
              = w.sys.effects := runEffect_effects w.sys id
          have hcells : ({ w with sys := runEffect w.sys id } : RWorld).cells
              = w.cells := rfl
          have hok' : ∀ id0 ∈ rest,
              c8SubOK { w with sys := runEffect w.sys id } id0 = true := by
            intro id0 h0
            rw [c8SubOK_congr w _ heff hcells id0]
            exact hok id0 (List.mem_cons_of_mem id h0)
          have hpl' : ∀ id0 ∈ rest, isComputedId
              ({ w with sys := runEffect w.sys id } : RWorld).sys id0
              = false := by
            intro id0 h0
            rw [isComputedId_congr w.sys _ heff id0]
            exact hpl id0 (List.mem_cons_of_mem id h0)
          obtain ⟨ih1, ih2, ih3⟩ := ih f' { w with sys := runEffect w.sys id }
            hok' hpl' (by simp at hf; omega)
          refine ⟨?_, ?_, ?_⟩
          · show (runQueue f' (runOne f' w id) rest).sys.log = _
            rw [hstep, ih1]
            rw [show ({ w with sys := runEffect w.sys id } : RWorld).sys.log
              = w.sys.log ++ [LogEntry.ran id]
              from runEffect_log_exact w.sys id ed hle hact]
            rw [List.map_cons, List.append_assoc]
            rfl
          · show (runQueue f' (runOne f' w id) rest).sys.effects = _
            rw [hstep, ih2, heff]
          · show (runQueue f' (runOne f' w id) rest).cells = _
            rw [hstep, ih3, hcells]

/-- C8: corrected trigger semantics. For a set on a non-array target,
trigger re-runs every recorded subscriber of (target, key) except the
currently running effect, invoking every computed subscriber through
its scheduler before any plain effect runs: the resulting log is
exactly the scheduler invocations of the computed subscribers followed
by the invocations of the plain subscribers, in dependency order. The
scheduler only marks the computed dirty; the fresh value is never
observed, because every computed .value read throws (the C10 bug),
which the concrete counterexample of this claim records. -/
theorem c8_trigger_order_amended
    (fuel : Nat) (w : RWorld) (t : Nat) (k : String) (v : Int)
    (hat : w.sys.arrayTargets.contains t = false)
    (hlk : (w.sys.deps.lookup t).isNone = false)
    (hnd : (getDep w.sys t k).Nodup)
    (hok : ∀ id ∈ getDep w.sys t k, c8SubOK w id = true)
    (hfuel : (getDep w.sys t k).length + 2 ≤ fuel) :
    (trigger fuel w "set" t k v).sys.log
      = w.sys.log
        ++ ((getDep w.sys t k).filter (fun id =>
              !(some id == w.sys.currentEffect)
                && isComputedId w.sys id)).map LogEntry.schedRan
        ++ ((getDep w.sys t k).filter (fun id =>
              !(some id == w.sys.currentEffect)
                && !(isComputedId w.sys id))).map LogEntry.ran := by
  cases fuel with
  | zero => exact absurd hfuel (by omega)
  | succ f =>
    rw [trigger_succ_eq f w "set" t k v hlk]
    have hex : triggerExtra w.sys "set" t k v = [] := by
      unfold triggerExtra
      rw [hat]
      simp
    rw [hex, List.append_nil]
    have hCq := dedupAcc_eq_append ((getDep w.sys t k).filter
        (fun id => !(some id == w.sys.currentEffect)
          && isComputedId w.sys id)) []
        (hnd.filter _) (fun x _ hx => absurd hx (List.not_mem_nil x))
    rw [List.nil_append] at hCq
    have hPq := dedupAcc_eq_append ((getDep w.sys t k).filter
        (fun id => !(some id == w.sys.currentEffect)
          && !(isComputedId w.sys id))) []
        (hnd.filter _) (fun x _ hx => absurd hx (List.not_mem_nil x))
    rw [List.nil_append] at hPq
    rw [hCq, hPq]
    rw [runQueue_sched ((getDep w.sys t k).filter
        (fun id => !(some id == w.sys.currentEffect)
          && isComputedId w.sys id)) f w
      (fun id h => hok id (List.mem_filter.mp h).1)
      (fun id h => by
        have hp := (List.mem_filter.mp h).2
        rw [Bool.and_eq_true] at hp
        exact hp.2)
      (by
        have hlf := List.length_filter_le
          (fun id => !(some id == w.sys.currentEffect)
            && isComputedId w.sys id) (getDep w.sys t k)
        omega)]
    obtain ⟨hlog2, -, -⟩ := runQueue_plainRun ((getDep w.sys t k).filter
        (fun id => !(some id == w.sys.currentEffect)
          && !(isComputedId w.sys id))) f
      { w with sys := { w.sys with log := w.sys.log
          ++ ((getDep w.sys t k).filter (fun id =>
            !(some id == w.sys.currentEffect)
              && isComputedId w.sys id)).map LogEntry.schedRan } }
      (fun id h => by
        rw [c8SubOK_congr w
          { w with sys := { w.sys with log := w.sys.log
              ++ ((getDep w.sys t k).filter (fun id =>
                !(some id == w.sys.currentEffect)
                  && isComputedId w.sys id)).map LogEntry.schedRan } }
          rfl rfl id]
        exact hok id (List.mem_filter.mp h).1)
      (fun id h => by
        rw [isComputedId_congr w.sys
          ({ w with sys := { w.sys with log := w.sys.log
              ++ ((getDep w.sys t k).filter (fun id =>
                !(some id == w.sys.currentEffect)
                  && isComputedId w.sys id)).map LogEntry.schedRan } }
            : RWorld).sys rfl id]
        have hp := (List.mem_filter.mp h).2
        rw [Bool.and_eq_true] at hp
        have hp2 := hp.2
        rw [Bool.not_eq_true'] at hp2
        exact hp2)
      (by
        have hlf := List.length_filter_le
          (fun id => !(some id == w.sys.currentEffect)
            && !(isComputedId w.sys id)) (getDep w.sys t k)
        omega)
    rw [hlog2]

/-- Witness: in the dirty-cell trigger scenario, the trigger on (1, a)
produces exactly the scheduler invocation of computed runner 20
followed by the run of plain effect 30, excluding the currently running
effect 40. -/
theorem c8_trigger_order_witness :
    (trigger 100 c8DirtyWorld "set" 1 "a" 1).sys.log
      = c8DirtyWorld.sys.log
        ++ ((getDep c8DirtyWorld.sys 1 "a").filter (fun id =>
              !(some id == c8DirtyWorld.sys.currentEffect)
                && isComputedId c8DirtyWorld.sys id)).map LogEntry.schedRan
        ++ ((getDep c8DirtyWorld.sys 1 "a").filter (fun id =>
              !(some id == c8DirtyWorld.sys.currentEffect)
                && !(isComputedId c8DirtyWorld.sys id))).map LogEntry.ran :=
  c8_trigger_order_amended 100 c8DirtyWorld 1 "a" 1 (by decide) (by decide)
    (by decide) (by decide) (by decide)
